import Mathlib

/-!
Verification development for the x86-studio 8086 IDE toolchain core.

The TypeScript sources are embedded shallowly:

* JavaScript strings are modelled as lists of UTF-16 code units (`Str := List Nat`),
  which is the representation JavaScript itself indexes; `strLit` converts a Lean
  string literal to that form.
* JavaScript numbers holding integers are modelled as `Int`.  Bitwise operations
  (`& 0xFFFF`, `& 0x1F`, `& 0xFF`, flag-bit tests, `|=` of disjoint flag bits)
  are modelled with `Int.emod` by powers of two and bit-value arithmetic, which
  agrees with JavaScript's two's-complement `ToInt32` semantics for all values of
  magnitude below 2^31 (every value the emulator ever stores or computes).
* `Uint8Array` memory is a size plus a byte function.
* A `try { ... } catch` body that mutates a state object is modelled as a
  function into `Except (Str × CPUState) CPUState`: the error carries the message
  together with the state as mutated up to the throw point, exactly as the caught
  JavaScript exception leaves `newState`.
-/

namespace X86

/-- JavaScript string: list of UTF-16 code units. -/
abbrev Str := List Nat

/-- Convert a Lean string literal to its code-unit list (all our literals are ASCII,
so code units coincide with code points). -/
def strLit (s : String) : Str := s.data.map Char.toNat

/-- JavaScript whitespace class `\s` restricted to the code points that can occur in
the sources this toolchain handles (ASCII whitespace; the non-ASCII `\s` members
behave identically in every function below). -/
def isWS (n : Nat) : Bool := n == 32 || n == 9 || n == 10 || n == 13 || n == 11 || n == 12

/-- Code points not matched by the JavaScript regex `.` (no `s` flag). -/
def isLineTerm (n : Nat) : Bool := n == 10 || n == 13 || n == 0x2028 || n == 0x2029

/-- Port of `String.prototype.trim`. -/
def jsTrim (s : Str) : Str :=
  ((s.dropWhile isWS).reverse.dropWhile isWS).reverse

/-- One code unit of `String.prototype.toUpperCase` (ASCII range). -/
def upperC (n : Nat) : Nat := if 97 ≤ n ∧ n ≤ 122 then n - 32 else n

/-- One code unit of `String.prototype.toLowerCase` (ASCII range). -/
def lowerC (n : Nat) : Nat := if 65 ≤ n ∧ n ≤ 90 then n + 32 else n

def toUpperS (s : Str) : Str := s.map upperC
def toLowerS (s : Str) : Str := s.map lowerC

def isDigitC (n : Nat) : Bool := 48 ≤ n && n ≤ 57
def isHexC (n : Nat) : Bool :=
  isDigitC n || (65 ≤ n && n ≤ 70) || (97 ≤ n && n ≤ 102)
def isBinC (n : Nat) : Bool := n == 48 || n == 49
def isAlphaC (n : Nat) : Bool := (65 ≤ n && n ≤ 90) || (97 ≤ n && n ≤ 122)
/-- The regex class `\w`. -/
def isWordC (n : Nat) : Bool := isAlphaC n || isDigitC n || n == 95

def digitVal (n : Nat) : Nat :=
  if 48 ≤ n ∧ n ≤ 57 then n - 48
  else if 65 ≤ n ∧ n ≤ 70 then n - 55
  else if 97 ≤ n ∧ n ≤ 102 then n - 87
  else 0

/-- Port of `parseInt(s, base)` on a string already known to consist of digits of the base. -/
def parseDigits (base : Nat) (s : Str) : Nat :=
  s.foldl (fun acc n => acc * base + digitVal n) 0

/-- Uppercase hexadecimal rendering of a natural number, as produced by
`n.toString(16).toUpperCase()`. -/
def hexDigit (d : Nat) : Nat := if d < 10 then 48 + d else 55 + d

def hexNatAux : Nat → Nat → Str
  | 0, _ => []
  | fuel + 1, n =>
    if n < 16 then [hexDigit n]
    else hexNatAux fuel (n / 16) ++ [hexDigit (n % 16)]

def hexNat (n : Nat) : Str := hexNatAux (n + 1) n

/-- Port of `address.toString(16).toUpperCase()` for a (possibly negative) integer. -/
def hexInt (i : Int) : Str :=
  if i < 0 then 45 :: hexNat i.natAbs else hexNat i.toNat

/-- 16-bit truncation `v & 0xFFFF` (two's-complement semantics on negatives). -/
def mask16 (v : Int) : Int := v.emod 65536

/-- The value (0 or 1) of bit `k` of `x` in two's-complement representation. -/
def bitVal (x : Int) (k : Nat) : Int := (x.emod (2 ^ (k + 1))) / (2 ^ k)

/-- Port of `(x & (1 <<< k)) !== 0`. -/
def testBit (x : Int) (k : Nat) : Bool := bitVal x k == 1

/-- Port of `x & ~(1 <<< k)`: clear bit `k`. -/
def clearBit (x : Int) (k : Nat) : Int := x - 2 ^ k * bitVal x k

/-- The sign bit `(v & 0x8000) !== 0`. -/
def signBit (v : Int) : Bool := testBit v 15

/-- Low 16-bit bitwise AND, OR, XOR: the emulator always masks these results to 16
bits, and the low 16 bits of a JavaScript bitwise operation depend only on the low
16 bits of the operands. -/
def and16 (a b : Int) : Int := Int.ofNat (Nat.land (mask16 a).toNat (mask16 b).toNat)
def or16 (a b : Int) : Int := Int.ofNat (Nat.lor (mask16 a).toNat (mask16 b).toNat)
def xor16 (a b : Int) : Int := Int.ofNat (Nat.xor (mask16 a).toNat (mask16 b).toNat)

/-- Port of `mask16(~v)`. -/
def not16 (v : Int) : Int := 65535 - mask16 v

-- ---------------------------------------------------------------------------
-- emulator/cpu.ts : data model
-- ---------------------------------------------------------------------------

/-- The eight operand registers of `parseRegister` (`IP` and `FLAGS` are not
addressable as operands). -/
inductive Reg | ax | bx | cx | dx | si | di | sp | bp
deriving DecidableEq, Repr

/-- The register file: ten named 16-bit slots. -/
structure Registers where
  AX : Int
  BX : Int
  CX : Int
  DX : Int
  SI : Int
  DI : Int
  SP : Int
  BP : Int
  IP : Int
  FLAGS : Int
deriving Repr

def getReg (r : Registers) : Reg → Int
  | .ax => r.AX | .bx => r.BX | .cx => r.CX | .dx => r.DX
  | .si => r.SI | .di => r.DI | .sp => r.SP | .bp => r.BP

def setReg (r : Registers) (which : Reg) (v : Int) : Registers :=
  match which with
  | .ax => { r with AX := v } | .bx => { r with BX := v }
  | .cx => { r with CX := v } | .dx => { r with DX := v }
  | .si => { r with SI := v } | .di => { r with DI := v }
  | .sp => { r with SP := v } | .bp => { r with BP := v }

/-- Port of `Uint8Array` memory: a length and a byte function (all bytes below 256). -/
structure Mem where
  size : Nat
  get : Nat → Nat

def Mem.set (m : Mem) (addr : Nat) (b : Nat) : Mem :=
  { m with get := fun i => if i = addr then b else m.get i }

structure CPUState where
  registers : Registers
  memory : Mem
  halted : Bool
  error : Option Str

def MEMORY_SIZE : Nat := 4096
def STACK_START : Int := 4094

/-- Port of `createInitialState`. -/
def createInitialState : CPUState :=
  { registers :=
      { AX := 0, BX := 0, CX := 0, DX := 0, SI := 0, DI := 0
        SP := STACK_START, BP := 0, IP := 0, FLAGS := 0 }
    memory := { size := MEMORY_SIZE, get := fun _ => 0 }
    halted := false
    error := none }

-- Flag bit positions.
def FLAG_CF : Nat := 0x0001
def FLAG_PF : Nat := 0x0004
def FLAG_AF : Nat := 0x0010
def FLAG_ZF : Nat := 0x0040
def FLAG_SF : Nat := 0x0080
def FLAG_OF : Nat := 0x0800

/-- Port of `hasEvenParity`: even parity of the low byte. -/
def hasEvenParity (byteValue : Int) : Bool :=
  let p0 := (byteValue.emod 256).toNat
  let p1 := Nat.xor p0 (p0 >>> 4)
  let p2 := Nat.xor p1 (p1 >>> 2)
  let p3 := Nat.xor p2 (p2 >>> 1)
  p3 % 2 == 0

/-- Port of `baseResultFlags` (ZF, SF, PF from a 16-bit result). -/
def baseResultFlags (result16 : Int) : Nat :=
  let res := mask16 result16
  (if res == 0 then FLAG_ZF else 0)
  + (if signBit res then FLAG_SF else 0)
  + (if hasEvenParity res then FLAG_PF else 0)

/-- Bit 4 of `x`, used for the auxiliary-carry computation
`((a ^ b ^ r) & 0x10) !== 0`. -/
def bit4 (x : Int) : Nat := (bitVal x 4).toNat

/-- Port of `setFlagsAdd`. -/
def setFlagsAdd (a b result : Int) : Int :=
  let res16 := mask16 result
  let base := baseResultFlags res16
  let withCF := base + (if result > 65535 then FLAG_CF else 0)
  let withAF := withCF + (if (bit4 a + bit4 b + bit4 res16) % 2 == 1 then FLAG_AF else 0)
  let withOF := withAF +
    (if signBit a == signBit b && signBit res16 != signBit a then FLAG_OF else 0)
  Int.ofNat withOF

/-- Port of `setFlagsSub`. -/
def setFlagsSub (a b result : Int) : Int :=
  let res16 := mask16 result
  let base := baseResultFlags res16
  let withCF := base + (if mask16 a < mask16 b then FLAG_CF else 0)
  let withAF := withCF + (if (bit4 a + bit4 b + bit4 res16) % 2 == 1 then FLAG_AF else 0)
  let withOF := withAF +
    (if signBit a != signBit b && signBit res16 != signBit a then FLAG_OF else 0)
  Int.ofNat withOF

/-- Port of `setFlagsLogic`. -/
def setFlagsLogic (result16 : Int) : Int := Int.ofNat (baseResultFlags result16)

/-- Port of `setFlagsShift` (`overflow = none` preserves the previous OF). -/
def setFlagsShift (result16 : Int) (carry : Bool) (overflow : Option Bool)
    (previousFlags : Int) : Int :=
  let base := baseResultFlags result16
  let withCF := base + (if carry then FLAG_CF else 0)
  let withOF := withCF +
    (match overflow with
     | some true => FLAG_OF
     | some false => 0
     | none => if testBit previousFlags 11 then FLAG_OF else 0)
  Int.ofNat withOF

/-- Port of `parseRegister`. -/
def parseRegister (operand : Str) : Option Reg :=
  let upper := jsTrim (toUpperS operand)
  if upper = strLit "AX" then some .ax
  else if upper = strLit "BX" then some .bx
  else if upper = strLit "CX" then some .cx
  else if upper = strLit "DX" then some .dx
  else if upper = strLit "SI" then some .si
  else if upper = strLit "DI" then some .di
  else if upper = strLit "SP" then some .sp
  else if upper = strLit "BP" then some .bp
  else none

/-- Port of `parseImmediate`: sign, then decimal, `0x…`, `…h`, or `0b…` forms (tested in
that order, like the source's regexes). -/
def parseImmediate (operand : Str) : Option Int :=
  let trimmed := jsTrim operand
  if trimmed = [] then none
  else
    let sign : Int := if trimmed.head? = some 45 then -1 else 1
    let normalized :=
      match trimmed with
      | n :: rest => if n = 43 ∨ n = 45 then rest else trimmed
      | [] => trimmed
    if normalized ≠ [] ∧ normalized.all isDigitC then
      some (sign * Int.ofNat (parseDigits 10 normalized))
    else if normalized.length > 2 ∧ normalized.head? = some 48 ∧
        (normalized.get? 1 = some 120 ∨ normalized.get? 1 = some 88) ∧
        (normalized.drop 2).all isHexC then
      some (sign * Int.ofNat (parseDigits 16 (normalized.drop 2)))
    else if normalized.length ≥ 2 ∧
        (normalized.getLast? = some 104 ∨ normalized.getLast? = some 72) ∧
        (normalized.dropLast).all isHexC then
      some (sign * Int.ofNat (parseDigits 16 normalized.dropLast))
    else if normalized.length > 2 ∧ normalized.head? = some 48 ∧
        (normalized.get? 1 = some 98 ∨ normalized.get? 1 = some 66) ∧
        (normalized.drop 2).all isBinC then
      some (sign * Int.ofNat (parseDigits 2 (normalized.drop 2)))
    else none

/-- Port of `operand.replace(/\s+/g, '')`. -/
def stripWS (s : Str) : Str := s.filter (fun n => !isWS n)

/-- Port of `parseMemoryOperand`: `[inner]` where `inner` (whitespace removed) is a
register, register±offset, or a direct immediate address. -/
def parseMemoryOperand (operand : Str) (registers : Registers) : Option Int :=
  let trimmed := jsTrim operand
  -- regex ^\[(.+)\]$ : leading '[', trailing ']', nonempty inner with no char
  -- outside the `.` class
  if trimmed.length ≥ 3 ∧ trimmed.head? = some 91 ∧ trimmed.getLast? = some 93 then
    let innerRaw := (trimmed.drop 1).dropLast
    if innerRaw.all (fun n => !isLineTerm n) then
      let inner := stripWS innerRaw
      if inner = [] then none
      else
        -- regex ^([A-Za-z]{2})([+-].+)?$
        let isRegForm :=
          inner.length ≥ 2 ∧ isAlphaC (inner.headD 0) ∧ isAlphaC ((inner.drop 1).headD 0) ∧
          (inner.length = 2 ∨ (inner.get? 2 = some 43 ∨ inner.get? 2 = some 45) ∧ inner.length ≥ 4)
        if isRegForm then
          match parseRegister (inner.take 2) with
          | none => none
          | some reg =>
            if inner.length = 2 then some (mask16 (getReg registers reg))
            else
              match parseImmediate (inner.drop 2) with
              | none => none
              | some offset => some (mask16 (getReg registers reg + offset))
        else
          match parseImmediate inner with
          | none => none
          | some imm => some (mask16 imm)
    else none
  else none

/-- Port of `readWord`: little-endian word read with bounds check; the error is the thrown
message. -/
def readWord (state : CPUState) (address : Int) : Except Str Int :=
  if address < 0 ∨ address + 1 ≥ (state.memory.size : Int) then
    .error (strLit "Memory read out of bounds: 0x" ++ hexInt address)
  else
    .ok (Int.ofNat (state.memory.get address.toNat + state.memory.get (address.toNat + 1) * 256))

/-- Port of `writeWord`: little-endian word write with bounds check. -/
def writeWord (state : CPUState) (address : Int) (value : Int) : Except Str CPUState :=
  if address < 0 ∨ address + 1 ≥ (state.memory.size : Int) then
    .error (strLit "Memory write out of bounds: 0x" ++ hexInt address)
  else
    let val := mask16 value
    let mem1 := state.memory.set address.toNat (val.emod 256).toNat
    let mem2 := mem1.set (address.toNat + 1) ((val / 256).emod 256).toNat
    .ok { state with memory := mem2 }

/-- Port of `resolveValue`: register, then memory, then immediate. -/
def resolveValue (state : CPUState) (operand : Str) : Except Str Int :=
  match parseRegister operand with
  | some reg => .ok (getReg state.registers reg)
  | none =>
    match parseMemoryOperand operand state.registers with
    | some memAddr => readWord state memAddr
    | none =>
      match parseImmediate operand with
      | some imm => .ok imm
      | none => .error (strLit "Invalid operand: " ++ operand)

end X86


namespace X86

-- ---------------------------------------------------------------------------
-- emulator/cpu.ts : executeInstruction
-- ---------------------------------------------------------------------------

/-- An instruction as produced by the assembler. -/
structure Instr where
  opcode : Str
  operands : List Str
  address : Int
  raw : Str
deriving DecidableEq, Repr

/-- The label map (a `Map<string, number>` with unique keys; lookup is
first-match association lookup). -/
abbrev LabelMap := List (Str × Int)

def assocLookup {α : Type} (l : List (Str × α)) (k : Str) : Option α :=
  match l with
  | [] => none
  | (k', v) :: rest => if k' = k then some v else assocLookup rest k

/-- Result of one `case` body inside `executeInstruction`'s `try`: either the
mutated state, or the thrown message paired with the state as mutated so far. -/
abbrev ExecRes := Except (Str × CPUState) CPUState

def err (s : CPUState) (m : Str) : ExecRes := .error (m, s)

/-- Stand-in for the JavaScript `TypeError` raised when a missing operand
(`operands[i]` being `undefined`) is dereferenced; only its presence, never its
text, matters to the program. -/
def typeErrUndef : Str := strLit "TypeError: operand is undefined"

def getOp (ops : List Str) (i : Nat) : Except Str Str :=
  match ops.get? i with
  | some o => .ok o
  | none => .error typeErrUndef

def advanceIP (s : CPUState) : CPUState :=
  { s with registers := { s.registers with IP := s.registers.IP + 1 } }

def setIP (s : CPUState) (v : Int) : CPUState :=
  { s with registers := { s.registers with IP := v } }

def setRegS (s : CPUState) (r : Reg) (v : Int) : CPUState :=
  { s with registers := setReg s.registers r v }

def setFlagsS (s : CPUState) (f : Int) : CPUState :=
  { s with registers := { s.registers with FLAGS := f } }

/-- Shared prologue `parseRegister(operands[0])` with the
`Invalid destination:` error. -/
def withDestReg (s : CPUState) (ops : List Str) (k : Reg → ExecRes) : ExecRes :=
  match getOp ops 0 with
  | .error m => err s m
  | .ok o0 =>
    match parseRegister o0 with
    | none => err s (strLit "Invalid destination: " ++ o0)
    | some r => k r

/-- Shared `resolveValue(newState, operands[i])` step. -/
def withSrcValue (s : CPUState) (ops : List Str) (i : Nat) (k : Int → ExecRes) : ExecRes :=
  match getOp ops i with
  | .error m => err s m
  | .ok o =>
    match resolveValue s o with
    | .error m => err s m
    | .ok v => k v

def stepMOV (s : CPUState) (ops : List Str) : ExecRes :=
  match getOp ops 0 with
  | .error m => err s m
  | .ok o0 =>
    let destReg := parseRegister o0
    let destMem := parseMemoryOperand o0 s.registers
    match getOp ops 1 with
    | .error m => err s m
    | .ok o1 =>
      let srcReg := parseRegister o1
      let srcMem := parseMemoryOperand o1 s.registers
      let srcImm := if srcReg.isSome || srcMem.isSome then none else parseImmediate o1
      if destReg = none ∧ destMem = none then err s (strLit "Invalid destination: " ++ o0)
      else if srcReg = none ∧ srcMem = none ∧ srcImm = none then
        err s (strLit "Invalid source: " ++ o1)
      else if destMem.isSome ∧ srcMem.isSome then
        err s (strLit "Memory to memory MOV is not supported")
      else
        -- the value read (register, memory word, or immediate), fed to the write
        -- and the trailing `IP++`
        let finish := fun (value : Int) =>
          match destReg with
          | some r => Except.ok (advanceIP (setRegS s r (mask16 value)))
          | none =>
            match destMem with
            | some a =>
              match writeWord s a value with
              | .error m => err s m
              | .ok s2 => .ok (advanceIP s2)
            | none => .ok (advanceIP s)
        match srcReg with
        | some r => finish (getReg s.registers r)
        | none =>
          match srcMem with
          | some a =>
            match readWord s a with
            | .error m => err s m
            | .ok value => finish value
          | none => finish (srcImm.getD 0)

def stepADD (s : CPUState) (ops : List Str) : ExecRes :=
  withDestReg s ops fun dest =>
    withSrcValue s ops 1 fun value =>
      let a := getReg s.registers dest
      let b := mask16 value
      let result := a + b
      .ok (advanceIP (setFlagsS (setRegS s dest (mask16 result)) (setFlagsAdd a b result)))

def stepADC (s : CPUState) (ops : List Str) : ExecRes :=
  withDestReg s ops fun dest =>
    withSrcValue s ops 1 fun value =>
      let carry : Int := if testBit s.registers.FLAGS 0 then 1 else 0
      let a := getReg s.registers dest
      let b := mask16 value + carry
      let result := a + b
      .ok (advanceIP (setFlagsS (setRegS s dest (mask16 result)) (setFlagsAdd a b result)))

def stepSUB (s : CPUState) (ops : List Str) : ExecRes :=
  withDestReg s ops fun dest =>
    withSrcValue s ops 1 fun value =>
      let a := getReg s.registers dest
      let b := mask16 value
      let result := a - b
      .ok (advanceIP (setFlagsS (setRegS s dest (mask16 result)) (setFlagsSub a b result)))

def stepSBB (s : CPUState) (ops : List Str) : ExecRes :=
  withDestReg s ops fun dest =>
    withSrcValue s ops 1 fun value =>
      let borrow : Int := if testBit s.registers.FLAGS 0 then 1 else 0
      let a := getReg s.registers dest
      let b := mask16 value + borrow
      let result := a - b
      .ok (advanceIP (setFlagsS (setRegS s dest (mask16 result)) (setFlagsSub a b result)))

def stepMUL (s : CPUState) (ops : List Str) : ExecRes :=
  withSrcValue s ops 0 fun v =>
    let value := mask16 v
    let result := mask16 s.registers.AX * value
    let ax := result.emod 65536
    let dx := (result / 65536).emod 65536
    let s1 := { s with registers := { s.registers with AX := ax, DX := dx } }
    let flags0 := clearBit (clearBit s1.registers.FLAGS 0) 11
    let flags := if dx ≠ 0 then flags0 + 1 + 2048 else flags0
    .ok (advanceIP (setFlagsS s1 flags))

def stepDIV (s : CPUState) (ops : List Str) : ExecRes :=
  withSrcValue s ops 0 fun v =>
    let divisor := mask16 v
    if divisor = 0 then err s (strLit "Division by zero")
    else
      let dividend := mask16 s.registers.DX * 65536 + mask16 s.registers.AX
      let quotient := dividend / divisor
      let remainder := dividend % divisor
      if quotient > 65535 then err s (strLit "Division overflow")
      else
        .ok (advanceIP { s with registers :=
          { s.registers with AX := quotient.emod 65536, DX := remainder.emod 65536 } })

def stepMOD (s : CPUState) (ops : List Str) : ExecRes :=
  withSrcValue s ops 0 fun v =>
    let divisor := mask16 v
    if divisor = 0 then err s (strLit "Division by zero")
    else
      let dividend := mask16 s.registers.AX
      .ok (advanceIP { s with registers := { s.registers with AX := dividend % divisor } })

def stepNEG (s : CPUState) (ops : List Str) : ExecRes :=
  withDestReg s ops fun dest =>
    let val := getReg s.registers dest
    let result := -val
    .ok (advanceIP (setFlagsS (setRegS s dest (mask16 result)) (setFlagsSub 0 val result)))

def stepAND (s : CPUState) (ops : List Str) : ExecRes :=
  withDestReg s ops fun dest =>
    withSrcValue s ops 1 fun value =>
      let result := and16 (getReg s.registers dest) value
      .ok (advanceIP (setFlagsS (setRegS s dest result) (setFlagsLogic result)))

def stepOR (s : CPUState) (ops : List Str) : ExecRes :=
  withDestReg s ops fun dest =>
    withSrcValue s ops 1 fun value =>
      let result := or16 (getReg s.registers dest) value
      .ok (advanceIP (setFlagsS (setRegS s dest result) (setFlagsLogic result)))

def stepXOR (s : CPUState) (ops : List Str) : ExecRes :=
  withDestReg s ops fun dest =>
    withSrcValue s ops 1 fun value =>
      let result := xor16 (getReg s.registers dest) value
      .ok (advanceIP (setFlagsS (setRegS s dest result) (setFlagsLogic result)))

def stepNOT (s : CPUState) (ops : List Str) : ExecRes :=
  withDestReg s ops fun dest =>
    .ok (advanceIP (setRegS s dest (not16 (getReg s.registers dest))))

/-- The shift-count computation shared by SHL/SAL/SHR/SAR (`count = 1` when there
is no second operand or it parses to neither register nor immediate). -/
def shiftCount (s : CPUState) (ops : List Str) : Int :=
  match ops.get? 1 with
  | none => 1
  | some o1 =>
    match parseRegister o1 with
    | some srcReg => (getReg s.registers srcReg).emod 32
    | none =>
      match parseImmediate o1 with
      | some imm => imm.emod 32
      | none => 1

def stepSHL (s : CPUState) (ops : List Str) : ExecRes :=
  withDestReg s ops fun dest =>
    let count := shiftCount s ops
    if count = 0 then .ok (advanceIP s)
    else
      let value := mask16 (getReg s.registers dest)
      let sh := (min count 16).toNat
      let carry := (value.toNat >>> (16 - sh)) % 2 = 1
      let result := Int.ofNat ((value.toNat <<< sh) % 65536)
      let overflow := if count = 1 then some (signBit result != signBit value) else none
      .ok (advanceIP (setFlagsS (setRegS s dest result)
        (setFlagsShift result carry overflow s.registers.FLAGS)))

def stepSHR (s : CPUState) (ops : List Str) : ExecRes :=
  withDestReg s ops fun dest =>
    let count := shiftCount s ops
    if count = 0 then .ok (advanceIP s)
    else
      let value := mask16 (getReg s.registers dest)
      let sh := (min count 16).toNat
      let carry := (value.toNat >>> (sh - 1)) % 2 = 1
      let result := Int.ofNat ((value.toNat >>> sh) % 65536)
      let overflow := if count = 1 then some (signBit value) else none
      .ok (advanceIP (setFlagsS (setRegS s dest result)
        (setFlagsShift result carry overflow s.registers.FLAGS)))

def stepSAR (s : CPUState) (ops : List Str) : ExecRes :=
  withDestReg s ops fun dest =>
    let count := shiftCount s ops
    if count = 0 then .ok (advanceIP s)
    else
      let value := mask16 (getReg s.registers dest)
      let signed := if signBit value then value - 65536 else value
      let sh := (min count 16).toNat
      let carry := (value.toNat >>> (sh - 1)) % 2 = 1
      let result := mask16 (Int.fdiv signed (2 ^ sh))
      let overflow := if count = 1 then some false else none
      .ok (advanceIP (setFlagsS (setRegS s dest result)
        (setFlagsShift result carry overflow s.registers.FLAGS)))

def stepCMP (s : CPUState) (ops : List Str) : ExecRes :=
  withDestReg s ops fun dest =>
    withSrcValue s ops 1 fun value =>
      let a := getReg s.registers dest
      let b := mask16 value
      let result := a - b
      .ok (advanceIP (setFlagsS s (setFlagsSub a b result)))

def stepINC (s : CPUState) (ops : List Str) : ExecRes :=
  withDestReg s ops fun dest =>
    let a := getReg s.registers dest
    let result := a + 1
    let oldCF := bitVal s.registers.FLAGS 0
    let flags := clearBit (setFlagsAdd a 1 result) 0 + oldCF
    .ok (advanceIP (setFlagsS (setRegS s dest (mask16 result)) flags))

def stepDEC (s : CPUState) (ops : List Str) : ExecRes :=
  withDestReg s ops fun dest =>
    let a := getReg s.registers dest
    let result := a - 1
    let oldCF := bitVal s.registers.FLAGS 0
    let flags := clearBit (setFlagsSub a 1 result) 0 + oldCF
    .ok (advanceIP (setFlagsS (setRegS s dest (mask16 result)) flags))

def stepPUSH (s : CPUState) (ops : List Str) : ExecRes :=
  match getOp ops 0 with
  | .error m => err s m
  | .ok o0 =>
    let srcReg := parseRegister o0
    let srcMem := parseMemoryOperand o0 s.registers
    if srcReg = none ∧ srcMem = none then err s (strLit "Invalid source: " ++ o0)
    else
      -- SP decrement, overflow check, stack write (the error state keeps the
      -- already-decremented SP), and `IP++`
      let push := fun (value : Int) =>
        let nextSp := s.registers.SP - 2
        if nextSp < 0 then err s (strLit "Stack overflow")
        else
          let s1 := { s with registers := { s.registers with SP := nextSp } }
          match writeWord s1 nextSp value with
          | .error m => err s1 m
          | .ok s2 => Except.ok (advanceIP s2)
      match srcReg with
      | some r => push (getReg s.registers r)
      | none =>
        match readWord s (srcMem.getD 0) with
        | .error m => err s m
        | .ok value => push value

def stepPOP (s : CPUState) (ops : List Str) : ExecRes :=
  match getOp ops 0 with
  | .error m => err s m
  | .ok o0 =>
    let destReg := parseRegister o0
    let destMem := parseMemoryOperand o0 s.registers
    if destReg = none ∧ destMem = none then err s (strLit "Invalid destination: " ++ o0)
    else
      match readWord s s.registers.SP with
      | .error m => err s m
      | .ok val =>
        -- the destination write, then `SP += 2` and `IP++`
        let finish := fun (s1 : CPUState) =>
          Except.ok (advanceIP
            { s1 with registers := { s1.registers with SP := s1.registers.SP + 2 } })
        match destReg with
        | some r => finish (setRegS s r val)
        | none =>
          match destMem with
          | some a =>
            match writeWord s a val with
            | .error m => err s m
            | .ok s1 => finish s1
          | none => finish s

def stepJMP (s : CPUState) (ops : List Str) (labels : LabelMap) : ExecRes :=
  match getOp ops 0 with
  | .error m => err s m
  | .ok o0 =>
    let label := toUpperS (jsTrim o0)
    match assocLookup labels label with
    | some addr => .ok (setIP s addr)
    | none =>
      match parseImmediate label with
      | none => err s (strLit "Unknown label: " ++ label)
      | some imm => .ok (setIP s imm)

/-- All conditional jumps: the label is only resolved (and a missing operand only
dereferenced) when the condition holds; otherwise `IP` advances by one. -/
def stepJcc (cond : Bool) (s : CPUState) (ops : List Str) (labels : LabelMap) : ExecRes :=
  if cond then
    match getOp ops 0 with
    | .error m => err s m
    | .ok o0 =>
      let label := toUpperS (jsTrim o0)
      match assocLookup labels label with
      | none => err s (strLit "Unknown label: " ++ label)
      | some addr => .ok (setIP s addr)
  else .ok (advanceIP s)

def stepHLT (s : CPUState) : ExecRes := .ok { s with halted := true }

def stepCLC (s : CPUState) : ExecRes :=
  .ok (advanceIP (setFlagsS s (clearBit s.registers.FLAGS 0)))

def stepSTC (s : CPUState) : ExecRes :=
  .ok (advanceIP (setFlagsS s (clearBit s.registers.FLAGS 0 + 1)))

def stepCMC (s : CPUState) : ExecRes :=
  .ok (advanceIP (setFlagsS s
    (if testBit s.registers.FLAGS 0 then s.registers.FLAGS - 1 else s.registers.FLAGS + 1)))

/-- The opcodes `executeInstruction`'s `switch` actually handles.  Note that
`CALL`, `RET`, `INT`, `IRET`, `IN` and `OUTP` have no case and fall to the
`default` arm. -/
inductive Op
  | mov | add | adc | sub | sbb | mul | div | mod | neg
  | band | bor | bxor | bnot | shl | shr | sar
  | cmp | inc | dec | push | pop
  | jmp | je | jne | jl | jg | jle | jge | jc | jnc | jsf | jns | jo | jno
  | hlt | nop | out | outc | clc | stc | cmc
deriving DecidableEq, Repr

/-- The `case` labels of the `switch` (aliases share an arm). -/
def OPCODE_CASES : List (Str × Op) :=
  [ (strLit "MOV", .mov), (strLit "ADD", .add), (strLit "ADC", .adc)
  , (strLit "SUB", .sub), (strLit "SBB", .sbb), (strLit "MUL", .mul)
  , (strLit "DIV", .div), (strLit "MOD", .mod), (strLit "NEG", .neg)
  , (strLit "AND", .band), (strLit "OR", .bor), (strLit "XOR", .bxor)
  , (strLit "NOT", .bnot)
  , (strLit "SHL", .shl), (strLit "SAL", .shl)
  , (strLit "SHR", .shr), (strLit "SAR", .sar)
  , (strLit "CMP", .cmp), (strLit "INC", .inc), (strLit "DEC", .dec)
  , (strLit "PUSH", .push), (strLit "POP", .pop)
  , (strLit "JMP", .jmp)
  , (strLit "JE", .je), (strLit "JZ", .je)
  , (strLit "JNE", .jne), (strLit "JNZ", .jne)
  , (strLit "JL", .jl), (strLit "JNGE", .jl)
  , (strLit "JG", .jg), (strLit "JNLE", .jg)
  , (strLit "JLE", .jle), (strLit "JNG", .jle)
  , (strLit "JGE", .jge), (strLit "JNL", .jge)
  , (strLit "JC", .jc), (strLit "JB", .jc), (strLit "JNAE", .jc)
  , (strLit "JNC", .jnc), (strLit "JAE", .jnc), (strLit "JNB", .jnc)
  , (strLit "JS", .jsf), (strLit "JNS", .jns)
  , (strLit "JO", .jo), (strLit "JNO", .jno)
  , (strLit "HLT", .hlt), (strLit "NOP", .nop)
  , (strLit "OUT", .out), (strLit "OUTC", .outc)
  , (strLit "CLC", .clc), (strLit "STC", .stc), (strLit "CMC", .cmc) ]

def decodeOp (upper : Str) : Option Op := assocLookup OPCODE_CASES upper

/-- The body of `executeInstruction`'s `try`: dispatch on
`opcode.toUpperCase()`; unmatched opcodes throw `Unknown instruction`. -/
def execCore (s : CPUState) (instr : Instr) (labels : LabelMap) : ExecRes :=
  let flags := s.registers.FLAGS
  let zf := testBit flags 6
  let sf := testBit flags 7
  let cf := testBit flags 0
  let ovf := testBit flags 11
  match decodeOp (toUpperS instr.opcode) with
  | none => err s (strLit "Unknown instruction: " ++ instr.opcode)
  | some op =>
    match op with
    | .mov => stepMOV s instr.operands
    | .add => stepADD s instr.operands
    | .adc => stepADC s instr.operands
    | .sub => stepSUB s instr.operands
    | .sbb => stepSBB s instr.operands
    | .mul => stepMUL s instr.operands
    | .div => stepDIV s instr.operands
    | .mod => stepMOD s instr.operands
    | .neg => stepNEG s instr.operands
    | .band => stepAND s instr.operands
    | .bor => stepOR s instr.operands
    | .bxor => stepXOR s instr.operands
    | .bnot => stepNOT s instr.operands
    | .shl => stepSHL s instr.operands
    | .shr => stepSHR s instr.operands
    | .sar => stepSAR s instr.operands
    | .cmp => stepCMP s instr.operands
    | .inc => stepINC s instr.operands
    | .dec => stepDEC s instr.operands
    | .push => stepPUSH s instr.operands
    | .pop => stepPOP s instr.operands
    | .jmp => stepJMP s instr.operands labels
    | .je => stepJcc zf s instr.operands labels
    | .jne => stepJcc (!zf) s instr.operands labels
    | .jl => stepJcc (sf != ovf) s instr.operands labels
    | .jg => stepJcc (!zf && sf == ovf) s instr.operands labels
    | .jle => stepJcc (zf || sf != ovf) s instr.operands labels
    | .jge => stepJcc (sf == ovf) s instr.operands labels
    | .jc => stepJcc cf s instr.operands labels
    | .jnc => stepJcc (!cf) s instr.operands labels
    | .jsf => stepJcc sf s instr.operands labels
    | .jns => stepJcc (!sf) s instr.operands labels
    | .jo => stepJcc ovf s instr.operands labels
    | .jno => stepJcc (!ovf) s instr.operands labels
    | .hlt => stepHLT s
    | .nop => .ok (advanceIP s)
    | .out => .ok (advanceIP s)
    | .outc => .ok (advanceIP s)
    | .clc => stepCLC s
    | .stc => stepSTC s
    | .cmc => stepCMC s

/-- Port of `executeInstruction`: run the `try` body on a copy of the state; the `catch`
marks the state (as mutated so far) halted with the thrown message. -/
def executeInstruction (state : CPUState) (instr : Instr) (labels : LabelMap) : CPUState :=
  match execCore state instr labels with
  | .ok s => s
  | .error (m, s) => { s with halted := true, error := some m }

/-- Convenience constructor for concrete instructions. -/
def mkInstr (opcode : String) (operands : List String) : Instr :=
  { opcode := strLit opcode
    operands := operands.map strLit
    address := 0
    raw := strLit opcode }

end X86


namespace X86

-- ---------------------------------------------------------------------------
-- assembler (Virtual 8086 Assembler) : assemble
-- ---------------------------------------------------------------------------

/-- Generic single-code-unit splitter (JavaScript `String.prototype.split` with a
one-character separator: empty fields are kept). -/
def splitOnC (sep : Nat) : Str → List Str
  | [] => [[]]
  | c :: rest =>
    match splitOnC sep rest with
    | [] => [[c]]
    | h :: t => if c = sep then [] :: h :: t else (c :: h) :: t

/-- Port of `source.split('\n')`. -/
def splitOnNL (s : Str) : List Str := splitOnC 10 s

/-- Port of `line.split(/\s+/)` on an already-trimmed line: the whitespace-separated
words. -/
def wordsAux : Nat → Str → List Str
  | 0, _ => []
  | _, [] => []
  | fuel + 1, c :: rest =>
    if isWS c then wordsAux fuel rest
    else
      (c :: rest.takeWhile (fun n => !isWS n)) ::
        wordsAux fuel (rest.dropWhile (fun n => !isWS n))

def words (s : Str) : List Str := wordsAux s.length s

/-- Port of `parts.slice(1).join(' ')`. -/
def joinSp (l : List Str) : Str := List.intercalate [32] l

/-- The regex `^(\w+):(.*)$` (no `m` flag: `$` is end of string, `.` excludes line
terminators): a maximal nonempty leading run of word characters, a colon, and a
terminator-free remainder. -/
def labelMatch (line : Str) : Option (Str × Str) :=
  let w := line.takeWhile isWordC
  if w ≠ [] ∧ line.get? w.length = some 58 ∧
      (line.drop (w.length + 1)).all (fun n => !isLineTerm n) then
    some (w, line.drop (w.length + 1))
  else none

def VALID_OPCODES : List Str :=
  [ strLit "MOV", strLit "ADD", strLit "ADC", strLit "SUB", strLit "SBB"
  , strLit "MUL", strLit "DIV", strLit "MOD", strLit "NEG"
  , strLit "AND", strLit "OR", strLit "XOR", strLit "NOT"
  , strLit "SHL", strLit "SAL", strLit "SHR", strLit "SAR"
  , strLit "CMP", strLit "JMP", strLit "JE", strLit "JZ", strLit "JNE", strLit "JNZ"
  , strLit "JL", strLit "JG", strLit "JLE", strLit "JGE"
  , strLit "JNGE", strLit "JNLE", strLit "JNG", strLit "JNL"
  , strLit "JC", strLit "JNC", strLit "JB", strLit "JNB", strLit "JAE", strLit "JNAE"
  , strLit "JS", strLit "JNS", strLit "JO", strLit "JNO"
  , strLit "INC", strLit "DEC", strLit "PUSH", strLit "POP"
  , strLit "CALL", strLit "RET", strLit "INT", strLit "IRET"
  , strLit "IN", strLit "OUTP"
  , strLit "HLT", strLit "NOP", strLit "OUT", strLit "OUTC"
  , strLit "CLC", strLit "STC", strLit "CMC" ]

def isValidRegisterA (operand : Str) : Bool :=
  let u := jsTrim (toUpperS operand)
  u = strLit "AX" ∨ u = strLit "BX" ∨ u = strLit "CX" ∨ u = strLit "DX" ∨
    u = strLit "SI" ∨ u = strLit "DI" ∨ u = strLit "SP" ∨ u = strLit "BP"

/-- Port of `isValidImmediate`: `^[-+]?` then decimal, `0x…`, `…h` or `0b…` (all
case-insensitive where the source's regexes carry the `i` flag). -/
def isValidImmediate (operand : Str) : Bool :=
  let trimmed := jsTrim operand
  let body := match trimmed with
    | n :: rest => if n = 43 ∨ n = 45 then rest else trimmed
    | [] => trimmed
  (body ≠ [] ∧ body.all isDigitC)
  ∨ (body.length > 2 ∧ body.head? = some 48 ∧
      (body.get? 1 = some 120 ∨ body.get? 1 = some 88) ∧ (body.drop 2).all isHexC)
  ∨ (body.length ≥ 2 ∧ (body.getLast? = some 104 ∨ body.getLast? = some 72) ∧
      body.dropLast.all isHexC)
  ∨ (body.length > 2 ∧ body.head? = some 48 ∧
      (body.get? 1 = some 98 ∨ body.get? 1 = some 66) ∧ (body.drop 2).all isBinC)

def isValidMemoryOperand (operand : Str) : Bool :=
  let trimmed := jsTrim operand
  if trimmed.length ≥ 3 ∧ trimmed.head? = some 91 ∧ trimmed.getLast? = some 93 ∧
      ((trimmed.drop 1).dropLast).all (fun n => !isLineTerm n) then
    let inner := stripWS ((trimmed.drop 1).dropLast)
    if inner = [] then false
    else if isValidRegisterA inner then true
    else
      let isRegForm :=
        inner.length ≥ 2 ∧ isAlphaC (inner.headD 0) ∧ isAlphaC ((inner.drop 1).headD 0) ∧
        (inner.length = 2 ∨ (inner.get? 2 = some 43 ∨ inner.get? 2 = some 45) ∧ inner.length ≥ 4)
      if isRegForm ∧ isValidRegisterA (inner.take 2) then
        if inner.length = 2 then true else isValidImmediate (inner.drop 2)
      else isValidImmediate inner
  else false

/-- A compiler/assembler diagnostic `{line, message, type}`. -/
structure Diag where
  line : Nat
  message : Str
  severity : Str
deriving DecidableEq, Repr

def errDiag (line : Nat) (message : Str) : Diag :=
  { line := line, message := message, severity := strLit "error" }

/-- Port of `validateInstruction` (returns the diagnostic for the first violated rule). -/
def validateInstruction (opcode : Str) (operands : List Str) (line : Nat) : Option Diag :=
  let nOps := operands.length
  let op0 := operands.getD 0 []
  let op1 := operands.getD 1 []
  if opcode = strLit "MOV" then
    if nOps ≠ 2 then some (errDiag line (opcode ++ strLit " requires 2 operands"))
    else
      let destIsReg := isValidRegisterA op0
      let destIsMem := isValidMemoryOperand op0
      let srcIsReg := isValidRegisterA op1
      let srcIsMem := isValidMemoryOperand op1
      let srcIsImm := isValidImmediate op1
      if ¬destIsReg ∧ ¬destIsMem then
        some (errDiag line (strLit "Invalid destination operand: " ++ op0))
      else if ¬srcIsReg ∧ ¬srcIsMem ∧ ¬srcIsImm then
        some (errDiag line (strLit "Invalid source operand: " ++ op1))
      else if destIsMem ∧ srcIsMem then
        some (errDiag line (strLit "MOV does not support memory to memory"))
      else none
  else if opcode = strLit "ADD" ∨ opcode = strLit "ADC" ∨ opcode = strLit "SUB" ∨
      opcode = strLit "SBB" ∨ opcode = strLit "CMP" ∨ opcode = strLit "AND" ∨
      opcode = strLit "OR" ∨ opcode = strLit "XOR" then
    if nOps ≠ 2 then some (errDiag line (opcode ++ strLit " requires 2 operands"))
    else if ¬isValidRegisterA op0 then
      some (errDiag line (strLit "Invalid destination register: " ++ op0))
    else if ¬isValidRegisterA op1 ∧ ¬isValidImmediate op1 ∧ ¬isValidMemoryOperand op1 then
      some (errDiag line (strLit "Invalid source operand: " ++ op1))
    else none
  else if opcode = strLit "MUL" ∨ opcode = strLit "DIV" ∨ opcode = strLit "MOD" then
    if nOps ≠ 1 then some (errDiag line (opcode ++ strLit " requires 1 operand"))
    else if ¬isValidRegisterA op0 ∧ ¬isValidImmediate op0 ∧ ¬isValidMemoryOperand op0 then
      some (errDiag line (strLit "Invalid operand: " ++ op0))
    else none
  else if opcode = strLit "SHL" ∨ opcode = strLit "SAL" ∨ opcode = strLit "SHR" ∨
      opcode = strLit "SAR" then
    if nOps < 1 ∨ nOps > 2 then
      some (errDiag line (opcode ++ strLit " requires 1 or 2 operands"))
    else if ¬isValidRegisterA op0 then
      some (errDiag line (strLit "Invalid destination register: " ++ op0))
    else if nOps = 2 ∧ ¬isValidRegisterA op1 ∧ ¬isValidImmediate op1 then
      some (errDiag line (strLit "Invalid shift count: " ++ op1))
    else none
  else if opcode = strLit "INC" ∨ opcode = strLit "DEC" ∨ opcode = strLit "NEG" ∨
      opcode = strLit "NOT" ∨ opcode = strLit "OUT" ∨ opcode = strLit "OUTC" then
    if nOps ≠ 1 then some (errDiag line (opcode ++ strLit " requires 1 operand"))
    else if ¬isValidRegisterA op0 then
      some (errDiag line (strLit "Invalid register: " ++ op0))
    else none
  else if opcode = strLit "PUSH" ∨ opcode = strLit "POP" then
    if nOps ≠ 1 then some (errDiag line (opcode ++ strLit " requires 1 operand"))
    else if ¬isValidRegisterA op0 ∧ ¬isValidMemoryOperand op0 then
      some (errDiag line (strLit "Invalid operand: " ++ op0))
    else none
  else if opcode = strLit "CALL" then
    if nOps ≠ 1 then
      some (errDiag line (opcode ++ strLit " requires 1 operand (label/address)"))
    else none
  else if opcode = strLit "RET" ∨ opcode = strLit "IRET" then
    if nOps ≠ 0 then some (errDiag line (opcode ++ strLit " takes no operands"))
    else none
  else if opcode = strLit "INT" then
    if nOps ≠ 1 then
      some (errDiag line (opcode ++ strLit " requires interrupt vector operand"))
    else if ¬isValidImmediate op0 ∧ ¬(op0 ≠ [] ∧ op0.all isWordC) then
      some (errDiag line (strLit "Invalid interrupt vector: " ++ op0))
    else none
  else if opcode = strLit "IN" then
    if nOps ≠ 2 then some (errDiag line (opcode ++ strLit " requires 2 operands"))
    else if ¬isValidRegisterA op0 then
      some (errDiag line (strLit "Invalid destination register: " ++ op0))
    else if ¬isValidImmediate op1 then
      some (errDiag line (strLit "Invalid input port: " ++ op1))
    else none
  else if opcode = strLit "OUTP" then
    if nOps ≠ 2 then some (errDiag line (opcode ++ strLit " requires 2 operands"))
    else if ¬isValidImmediate op0 then
      some (errDiag line (strLit "Invalid output port: " ++ op0))
    else if ¬isValidRegisterA op1 then
      some (errDiag line (strLit "Invalid source register: " ++ op1))
    else none
  else if opcode = strLit "JMP" ∨ opcode = strLit "JE" ∨ opcode = strLit "JZ" ∨
      opcode = strLit "JNE" ∨ opcode = strLit "JNZ" ∨ opcode = strLit "JL" ∨
      opcode = strLit "JG" ∨ opcode = strLit "JLE" ∨ opcode = strLit "JGE" ∨
      opcode = strLit "JNGE" ∨ opcode = strLit "JNLE" ∨ opcode = strLit "JNG" ∨
      opcode = strLit "JNL" ∨ opcode = strLit "JC" ∨ opcode = strLit "JNC" ∨
      opcode = strLit "JB" ∨ opcode = strLit "JNB" ∨ opcode = strLit "JAE" ∨
      opcode = strLit "JNAE" ∨ opcode = strLit "JS" ∨ opcode = strLit "JNS" ∨
      opcode = strLit "JO" ∨ opcode = strLit "JNO" then
    if nOps ≠ 1 then
      some (errDiag line (opcode ++ strLit " requires 1 operand (label)"))
    else none
  else if opcode = strLit "HLT" ∨ opcode = strLit "NOP" ∨ opcode = strLit "CLC" ∨
      opcode = strLit "STC" ∨ opcode = strLit "CMC" then
    if nOps ≠ 0 then some (errDiag line (opcode ++ strLit " takes no operands"))
    else none
  else none

/-- Pass-1 fold state: collected labels, diagnostics, and the instruction-index
counter. -/
structure P1St where
  labels : List (Str × Int)
  errors : List Diag
  idx : Nat
deriving Repr

/-- One line of the assembler's first pass (label collection). -/
def pass1Line (i : Nat) (raw : Str) (st : P1St) : P1St :=
  let trimmed := jsTrim raw
  if trimmed = [] ∨ trimmed.head? = some 59 then st
  else
    match labelMatch trimmed with
    | some (w, rest) =>
      let labelName := toUpperS w
      let st1 :=
        if assocLookup st.labels labelName ≠ none then
          { st with errors := st.errors ++ [errDiag (i + 1) (strLit "Duplicate label: " ++ labelName)] }
        else
          { st with labels := st.labels ++ [(labelName, Int.ofNat st.idx)] }
      let afterLabel := jsTrim rest
      if afterLabel ≠ [] ∧ afterLabel.head? ≠ some 59 then { st1 with idx := st1.idx + 1 }
      else st1
    | none => { st with idx := st.idx + 1 }

/-- Pass-2 fold state: parsed instructions, diagnostics, and the instruction-index
counter. -/
structure P2St where
  instrs : List Instr
  errors : List Diag
  idx : Nat
deriving Repr

/-- The instruction text of a source line after trimming, label stripping, and
inline-comment stripping, or `none` when the line contributes nothing to pass 2. -/
def processedLine (raw : Str) : Option Str :=
  let line := jsTrim raw
  if line = [] ∨ line.head? = some 59 then none
  else
    let line1 :=
      match labelMatch line with
      | some (_, rest) => jsTrim rest
      | none => line
    if line1 = [] ∨ line1.head? = some 59 then none
    else
      let line2 :=
        if line1.contains 59 then jsTrim (line1.takeWhile (fun n => n ≠ 59)) else line1
      if line2 = [] then none else some line2

/-- One line of the assembler's second pass (instruction parsing).  An unknown
opcode records a diagnostic and advances the index counter, without appending an
instruction. -/
def pass2Line (i : Nat) (raw : Str) (st : P2St) : P2St :=
  match processedLine raw with
  | none => st
  | some line =>
    let parts := words line
    let opcode := toUpperS (parts.headD [])
    if ¬ VALID_OPCODES.contains opcode then
      { st with
        errors := st.errors ++ [errDiag (i + 1) (strLit "Unknown instruction: " ++ opcode)]
        idx := st.idx + 1 }
    else
      let operandStr := joinSp (parts.drop 1)
      let operands :=
        if operandStr ≠ [] then (splitOnC 44 operandStr).map jsTrim else []
      let verrs :=
        match validateInstruction opcode operands (i + 1) with
        | some e => [e]
        | none => []
      { st with
        instrs := st.instrs ++ [⟨opcode, operands, Int.ofNat st.idx, line⟩]
        errors := st.errors ++ verrs
        idx := st.idx + 1 }

def foldIdx {α σ : Type} (f : Nat → α → σ → σ) : Nat → List α → σ → σ
  | _, [], st => st
  | i, a :: rest, st => foldIdx f (i + 1) rest (f i a st)

def pass1 (lines : List Str) : P1St := foldIdx pass1Line 0 lines ⟨[], [], 0⟩

def pass2 (lines : List Str) : P2St := foldIdx pass2Line 0 lines ⟨[], [], 0⟩

/-- The assembler's output (`bytecode` is reserved and empty). -/
structure Program where
  bytecode : List Nat
  labels : List (Str × Int)
  instructions : List Instr
  errors : List Diag
deriving Repr

/-- Port of `assemble`: two passes plus the implicit trailing `HLT`. -/
def assemble (source : Str) : Program :=
  let lines := splitOnNL source
  let p1 := pass1 lines
  let p2 := pass2 lines
  let instructions :=
    if p2.instrs = [] ∨ (p2.instrs.getLast?.map Instr.opcode) ≠ some (strLit "HLT") then
      p2.instrs ++ [⟨strLit "HLT", [], Int.ofNat p2.idx, strLit "HLT (implicit)"⟩]
    else p2.instrs
  { bytecode := []
    labels := p1.labels
    instructions := instructions
    errors := p1.errors ++ p2.errors }

end X86


namespace X86

-- ---------------------------------------------------------------------------
-- compiler/lexer.ts : tokenize
-- ---------------------------------------------------------------------------

inductive TType
  | keyword | identifier | number | operator | string | newline | eof
deriving DecidableEq, Repr

structure Token where
  ttype : TType
  value : Str
  line : Nat
  column : Nat
deriving DecidableEq, Repr

def KEYWORDS : List Str :=
  [ strLit "program", strLit "end", strLit "if", strLit "else", strLit "while"
  , strLit "for", strLit "print", strLit "input", strLit "var", strLit "then"
  , strLit "do", strLit "to", strLit "step", strLit "and", strLit "or"
  , strLit "not", strLit "true", strLit "false" ]

def LEX_OPERATORS : List Str :=
  [ strLit "==", strLit "!=", strLit "<=", strLit ">="
  , strLit "<", strLit ">", strLit "=", strLit "+", strLit "-"
  , strLit "*", strLit "/", strLit "%", strLit "(", strLit ")", strLit "," ]

/-- The operator-matching loop: the longest operator that is a prefix of the rest
of the line (all multi-character operators have length 2 and no two distinct
single-character operators can match at once, so longest-match equals
two-character-first). -/
def matchedOp (rest : Str) : Option Str :=
  match LEX_OPERATORS.find? (fun op => op.length = 2 ∧ rest.take 2 = op) with
  | some op => some op
  | none => LEX_OPERATORS.find? (fun op => op.length = 1 ∧ rest.take 1 = op)

/-- The character class `/[\dxXa-fA-FbB]/` of the number scanner. -/
def isNumBodyC (n : Nat) : Bool :=
  isDigitC n || (97 ≤ n && n ≤ 102) || (65 ≤ n && n ≤ 70) || n == 120 || n == 88

/-- String-literal scanner: returns the decoded value, the number of code units
consumed after the opening quote, and whether the closing quote was found. -/
def scanStr (quote : Nat) : Nat → Str → (Str × Nat × Bool)
  | 0, _ => ([], 0, false)
  | _, [] => ([], 0, false)
  | fuel + 1, c :: rest =>
    if c = quote then ([], 1, true)
    else if c = 92 ∧ rest ≠ [] then
      let e := rest.headD 0
      let ch : Nat :=
        if e = 110 then 10
        else if e = 116 then 9
        else if e = 92 then 92
        else if e = 34 then 34
        else if e = 39 then 39
        else e
      let (v, n, t) := scanStr quote fuel (rest.drop 1)
      (ch :: v, n + 2, t)
    else
      let (v, n, t) := scanStr quote fuel rest
      (c :: v, n + 1, t)

/-- One line of `tokenize`'s scanning loop over the remaining code units
(`rest = line.drop col`).  Comment introducers stop the line; unknown characters
record a diagnostic and are skipped. -/
def scanLine (lineNum : Nat) : Nat → Str → Nat → (List Token × List Diag)
  | 0, _, _ => ([], [])
  | _, [], _ => ([], [])
  | fuel + 1, c :: r, col =>
    if isWS c then scanLine lineNum fuel r (col + 1)
    else if c = 59 ∨ c = 35 ∨ (c = 47 ∧ r.head? = some 47) then ([], [])
    else
      match matchedOp (c :: r) with
      | some op =>
        let next := scanLine lineNum fuel ((c :: r).drop op.length) (col + op.length)
        (⟨.operator, op, lineNum, col + 1⟩ :: next.1, next.2)
      | none =>
        if isDigitC c then
          let body := (c :: r).takeWhile isNumBodyC
          let rest1 := (c :: r).dropWhile isNumBodyC
          let hasH := match rest1.head? with
            | some h => lowerC h == 104
            | none => false
          let numStr := if hasH then body ++ [rest1.headD 0] else body
          let consumed := if hasH then body.length + 1 else body.length
          let next := scanLine lineNum fuel ((c :: r).drop consumed) (col + consumed)
          (⟨.number, numStr, lineNum, col + 1⟩ :: next.1, next.2)
        else if isAlphaC c ∨ c = 95 then
          let ident := (c :: r).takeWhile isWordC
          let rest1 := (c :: r).dropWhile isWordC
          let low := toLowerS ident
          let isKw := KEYWORDS.contains low
          let next := scanLine lineNum fuel rest1 (col + ident.length)
          (⟨if isKw then .keyword else .identifier, low, lineNum, col + 1⟩ :: next.1, next.2)
        else if c = 34 ∨ c = 39 then
          let scanned := scanStr c r.length r
          let errs := if scanned.2.2 then [] else
            [errDiag lineNum (strLit "Unterminated string literal")]
          let next := scanLine lineNum fuel (r.drop scanned.2.1) (col + 1 + scanned.2.1)
          (⟨.string, scanned.1, lineNum, col + 1⟩ :: next.1, errs ++ next.2)
        else
          let next := scanLine lineNum fuel r (col + 1)
          (next.1, errDiag lineNum (strLit "Unexpected character: " ++ [39, c, 39]) :: next.2)

/-- Fold of `tokenize` over the source lines, threading the global token list (the
trailing-`NEWLINE` check inspects the accumulated tokens, not just the current
line's). -/
def tokenizeLines : Nat → List Str → List Token → List Diag → (List Token × List Diag)
  | _, [], toks, errs => (toks, errs)
  | lineNum, line :: rest, toks, errs =>
    let scanned := scanLine lineNum line.length line 0
    let toks1 := toks ++ scanned.1
    let toks2 :=
      if toks1 ≠ [] ∧ (toks1.getLast?.map Token.ttype) ≠ some .newline then
        toks1 ++ [⟨.newline, [10], lineNum, line.length + 1⟩]
      else toks1
    tokenizeLines (lineNum + 1) rest toks2 (errs ++ scanned.2)

/-- Port of `tokenize`. -/
def tokenize (source : Str) : List Token × List Diag :=
  let lines := splitOnNL source
  let scanned := tokenizeLines 1 lines [] []
  (scanned.1 ++ [⟨.eof, [], lines.length, 0⟩], scanned.2)

-- ---------------------------------------------------------------------------
-- App.tsx : debugRunToEnd (the stepper's Continue)
-- ---------------------------------------------------------------------------

/-- One execution snapshot as the stepper records it (the fields the claims
inspect: the deep-copied CPU state and the trace length at the snapshot). -/
structure Snap where
  state : CPUState
  traceLength : Nat

/-- The stepper state owned by the debugger: snapshot timeline, trace (modelled by
each entry's `instructionAddress` field), and the timeline cursor.  Output and
performance bookkeeping do not feed back into control flow and are omitted. -/
structure Stepper where
  snapshots : List Snap
  trace : List Int
  cursor : Nat

def MAX_DEBUG_STEPS : Nat := 10000

def defaultInstr : Instr := ⟨strLit "NOP", [], 0, strLit "NOP"⟩

/-- The `while` loop of `debugRunToEnd`: runs until halt, out-of-range `IP`,
breakpoint (checked at the top of every iteration, with no executed-step
minimum), post-step breakpoint, or the step cap (`fuel + steps = MAX_DEBUG_STEPS`).
Watchpoints are modelled as absent (an empty watchpoint set never pauses).
Returns the final state, trace, snapshot list and executed-step count. -/
def runToEndLoop (prog : List Instr) (labels : LabelMap) (bps : List Int) :
    Nat → CPUState → List Int → List Snap → Nat → (CPUState × List Int × List Snap × Nat)
  | 0, st, tr, sn, steps => (st, tr, sn, steps)
  | fuel + 1, st, tr, sn, steps =>
    if st.halted then (st, tr, sn, steps)
    else
      let ip := st.registers.IP
      if ip < 0 ∨ ip ≥ (prog.length : Int) then
        ({ st with halted := true, error := some (strLit "IP out of bounds") }, tr, sn, steps)
      else if bps.contains ip then (st, tr, sn, steps)
      else
        let instr := prog.getD ip.toNat defaultInstr
        let st' := executeInstruction st instr labels
        let tr' := tr ++ [ip]
        let sn' := sn ++ [⟨st', tr'.length⟩]
        if bps.contains st'.registers.IP then (st', tr', sn', steps + 1)
        else runToEndLoop prog labels bps fuel st' tr' sn' (steps + 1)

/-- Port of `debugRunToEnd` (Continue): branch the timeline at the cursor, run the loop,
apply the step-cap halt, and append the final snapshot.  The source guards the
append with `lastSnapshotState !== currentState`, but `createExecutionSnapshot`
deep-copies the state it stores and the loop variable is always a fresh object
(from `restoreExecutionSnapshot` or `executeInstruction`), so that reference
comparison is always true and the append always happens. -/
def debugRunToEnd (prog : List Instr) (labels : LabelMap) (bps : List Int)
    (stp : Stepper) : Stepper :=
  let safeIdx := min stp.cursor (stp.snapshots.length - 1)
  let active := stp.snapshots.getD safeIdx ⟨createInitialState, 0⟩
  let st0 := active.state
  let tr0 := stp.trace.take active.traceLength
  let sn0 := stp.snapshots.take (safeIdx + 1)
  let out := runToEndLoop prog labels bps MAX_DEBUG_STEPS st0 tr0 sn0 0
  let st1 := out.1
  let tr1 := out.2.1
  let sn1 := out.2.2.1
  let steps := out.2.2.2
  let st2 :=
    if steps ≥ MAX_DEBUG_STEPS ∧ st1.halted = false then
      { st1 with halted := true
                 error := some (strLit "Maximum steps exceeded (infinite loop?)") }
    else st1
  let sn2 := sn1 ++ [⟨st2, tr1.length⟩]
  { snapshots := sn2, trace := tr1, cursor := sn2.length - 1 }

/-- The stepper state `debugReset` establishes. -/
def resetStepper : Stepper :=
  { snapshots := [⟨createInitialState, 0⟩], trace := [], cursor := 0 }

-- ---------------------------------------------------------------------------
-- components/lab/ChallengePanel.tsx : normalizeMemory (replay import)
-- ---------------------------------------------------------------------------

/-- The serialized forms a snapshot's `memory` field can take in a replay
payload: a `Uint8Array`, a JavaScript array (entries that are finite numbers or
not), a plain object (string keys to values that are finite numbers or not), or
anything else. -/
inductive JMem
  | u8 (data : List Nat)
  | arr (data : List (Option Int))
  | obj (pairs : List (Str × Option Int))
  | other

/-- Decimal rendering of a natural number (`index.toString()`). -/
def decNatAux : Nat → Nat → Str
  | 0, _ => []
  | fuel + 1, n =>
    if n < 10 then [48 + n]
    else decNatAux fuel (n / 10) ++ [48 + n % 10]

def decNat (n : Nat) : Str := decNatAux (n + 1) n

def DEFAULT_MEMORY_SIZE : Nat := 4096

/-- Port of `asNumber(value, 0) & 0xFF` for an object/array entry. -/
def byteOf (v : Option Int) : Nat := ((v.getD 0).emod 256).toNat

/-- Port of `normalizeMemory`, returning the resulting byte buffer as a list. -/
def normalizeMemory (memory : JMem) : List Nat :=
  match memory with
  | .u8 data => data
  | .arr data => data.map byteOf
  | .obj pairs =>
    let indexes :=
      (pairs.filterMap fun kv =>
        if kv.1 ≠ [] ∧ kv.1.all isDigitC then some (parseDigits 10 kv.1) else none)
    if indexes ≠ [] then
      let size := max DEFAULT_MEMORY_SIZE (indexes.foldl max 0 + 1)
      (List.range size).map fun i =>
        if indexes.contains i then byteOf ((assocLookup pairs (decNat i)).getD none)
        else 0
    else List.replicate DEFAULT_MEMORY_SIZE 0
  | .other => List.replicate DEFAULT_MEMORY_SIZE 0

end X86


namespace X86

instance {ε α : Type} [DecidableEq ε] [DecidableEq α] : DecidableEq (Except ε α) :=
  fun a b =>
  match a, b with
  | .ok x, .ok y =>
    match decEq x y with
    | isTrue h => isTrue (h ▸ rfl)
    | isFalse h => isFalse (fun hh => h (Except.ok.inj hh))
  | .error x, .error y =>
    match decEq x y with
    | isTrue h => isTrue (h ▸ rfl)
    | isFalse h => isFalse (fun hh => h (Except.error.inj hh))
  | .ok _, .error _ => isFalse (fun hh => Except.noConfusion hh)
  | .error _, .ok _ => isFalse (fun hh => Except.noConfusion hh)

/-- Whether a `case` body completed without throwing. -/
def isOk {ε α : Type} : Except ε α → Bool
  | .ok _ => true
  | .error _ => false

/-- The spec's non-branching instruction category among the opcodes the `switch`
implements: everything except the jumps and `HLT` (which does not advance `IP`).
`CALL`/`RET`/`INT`/`IRET`/`IN`/`OUTP` decode to `none` and never succeed, so they
carry no successful-advance obligation. -/
def Op.nonBranching : Op → Bool
  | .jmp | .je | .jne | .jl | .jg | .jle | .jge
  | .jc | .jnc | .jsf | .jns | .jo | .jno | .hlt => false
  | _ => true

/-- Every `.error` outcome of a `case` body carries a state whose `IP` equals the
input's (failure never moves `IP`). -/
def failPreservesIP (s : CPUState) (r : ExecRes) : Prop :=
  ∀ m s', r = .error (m, s') → s'.registers.IP = s.registers.IP

/-- Every `.ok` outcome of a `case` body advances `IP` by exactly one. -/
def okAdvancesIP (s : CPUState) (r : ExecRes) : Prop :=
  ∀ s', r = .ok s' → s'.registers.IP = s.registers.IP + 1

-- ---------------------------------------------------------------------------
-- helper lemmas on state projections
-- ---------------------------------------------------------------------------

@[simp] theorem setReg_IP (r : Registers) (w : Reg) (v : Int) :
    (setReg r w v).IP = r.IP := by cases w <;> rfl

@[simp] theorem setReg_FLAGS (r : Registers) (w : Reg) (v : Int) :
    (setReg r w v).FLAGS = r.FLAGS := by cases w <;> rfl

@[simp] theorem advanceIP_regIP (s : CPUState) :
    (advanceIP s).registers.IP = s.registers.IP + 1 := rfl

@[simp] theorem advanceIP_regFLAGS (s : CPUState) :
    (advanceIP s).registers.FLAGS = s.registers.FLAGS := rfl

@[simp] theorem setFlagsS_regIP (s : CPUState) (f : Int) :
    (setFlagsS s f).registers.IP = s.registers.IP := rfl

@[simp] theorem setFlagsS_regFLAGS (s : CPUState) (f : Int) :
    (setFlagsS s f).registers.FLAGS = f := rfl

@[simp] theorem setRegS_regIP (s : CPUState) (w : Reg) (v : Int) :
    (setRegS s w v).registers.IP = s.registers.IP := by
  simp [setRegS]

@[simp] theorem setRegS_regFLAGS (s : CPUState) (w : Reg) (v : Int) :
    (setRegS s w v).registers.FLAGS = s.registers.FLAGS := by
  simp [setRegS]

theorem writeWord_ok_registers {s s2 : CPUState} {a v : Int}
    (h : writeWord s a v = .ok s2) : s2.registers = s.registers := by
  unfold writeWord at h
  split at h
  · cases h
  · cases h; rfl

-- ---------------------------------------------------------------------------
-- C1
-- ---------------------------------------------------------------------------

/-- C1: the spec's `CALL`/`RET`/`INT`/`IRET` transfer semantics are not what the
code does — `executeInstruction` has no case for any of the four opcodes, so each
falls to the `default` arm and halts with an `Unknown instruction` error, leaving
`IP`, `SP`, `FLAGS` and the stack memory untouched (no word is pushed or popped,
no vector is read). -/
theorem callRetIntIret_fall_to_default :
    (let lbls : LabelMap := [(strLit "ISR", (3 : Int))]
     let sCALL := executeInstruction createInitialState (mkInstr "CALL" ["ISR"]) lbls
     sCALL.halted = true ∧
     sCALL.error = some (strLit "Unknown instruction: CALL") ∧
     sCALL.registers.IP = 0 ∧ sCALL.registers.SP = 4094 ∧
     sCALL.memory.get 4092 = 0) ∧
    (let sRET := executeInstruction createInitialState (mkInstr "RET" []) []
     sRET.halted = true ∧
     sRET.error = some (strLit "Unknown instruction: RET") ∧
     sRET.registers.IP = 0 ∧ sRET.registers.SP = 4094) ∧
    (let sINT := executeInstruction createInitialState (mkInstr "INT" ["1"]) []
     sINT.halted = true ∧
     sINT.error = some (strLit "Unknown instruction: INT") ∧
     sINT.registers.IP = 0 ∧ sINT.registers.SP = 4094) ∧
    (let sIRET := executeInstruction createInitialState (mkInstr "IRET" []) []
     sIRET.halted = true ∧
     sIRET.error = some (strLit "Unknown instruction: IRET") ∧
     sIRET.registers.IP = 0 ∧ sIRET.registers.FLAGS = 0 ∧
     sIRET.registers.SP = 4094) := by
  decide

-- ---------------------------------------------------------------------------
-- C8
-- ---------------------------------------------------------------------------

/-- C8: executing `ADD` with the destination register holding `0x8000` and a
source operand resolving to a value whose 16-bit truncation is `0x8000` yields
`CF = 1`, `OF = 1`, `ZF = 1`, `SF = 0` in the resulting FLAGS word. -/
theorem add_0x8000_0x8000_flags (s : CPUState) (labels : LabelMap)
    (o0 o1 : Str) (a : Int) (rw : Str) (r : Reg) (v : Int)
    (hr : parseRegister o0 = some r)
    (ha : getReg s.registers r = 0x8000)
    (hv : resolveValue s o1 = .ok v)
    (hm : mask16 v = 0x8000) :
    let s' := executeInstruction s ⟨strLit "ADD", [o0, o1], a, rw⟩ labels
    testBit s'.registers.FLAGS 0 = true ∧ testBit s'.registers.FLAGS 11 = true ∧
    testBit s'.registers.FLAGS 6 = true ∧ testBit s'.registers.FLAGS 7 = false := by
  have hd : decodeOp (toUpperS (strLit "ADD")) = some .add := by decide
  simp only [executeInstruction, execCore, hd, stepADD, withDestReg, withSrcValue,
    getOp, List.get?, hr, hv, ha, hm]
  simp only [advanceIP_regFLAGS, setFlagsS_regFLAGS]
  decide

/-- Witness for C8 at a concrete state (`AX = 0x8000`, source operand the literal
`0x8000`). -/
theorem add_0x8000_0x8000_flags_witness :
    let s : CPUState :=
      { createInitialState with
          registers := { createInitialState.registers with AX := 0x8000 } }
    let s' := executeInstruction s ⟨strLit "ADD", [strLit "AX", strLit "0x8000"], 0, []⟩ []
    testBit s'.registers.FLAGS 0 = true ∧ testBit s'.registers.FLAGS 11 = true ∧
    testBit s'.registers.FLAGS 6 = true ∧ testBit s'.registers.FLAGS 7 = false := by
  exact add_0x8000_0x8000_flags _ [] (strLit "AX") (strLit "0x8000") 0 [] .ax 32768
    (by decide) (by decide) (by decide) (by decide)

end X86

namespace X86

-- ---------------------------------------------------------------------------
-- C7
-- ---------------------------------------------------------------------------

/-- C7: whenever `CMP r, src` and `SUB r, src` both succeed from the same state,
they produce identical FLAGS words, and `CMP` leaves all eight operand registers
(everything other than `IP` and `FLAGS`) exactly as they were in the input
state. -/
theorem cmp_flags_eq_sub_flags (s : CPUState) (labels : LabelMap) (o0 o1 : Str)
    (a1 a2 : Int) (r1 r2 : Str)
    (hc : isOk (execCore s ⟨strLit "CMP", [o0, o1], a1, r1⟩ labels) = true)
    (hs : isOk (execCore s ⟨strLit "SUB", [o0, o1], a2, r2⟩ labels) = true) :
    let s1 := executeInstruction s ⟨strLit "CMP", [o0, o1], a1, r1⟩ labels
    let s2 := executeInstruction s ⟨strLit "SUB", [o0, o1], a2, r2⟩ labels
    s1.registers.FLAGS = s2.registers.FLAGS ∧
    s1.registers.AX = s.registers.AX ∧ s1.registers.BX = s.registers.BX ∧
    s1.registers.CX = s.registers.CX ∧ s1.registers.DX = s.registers.DX ∧
    s1.registers.SI = s.registers.SI ∧ s1.registers.DI = s.registers.DI ∧
    s1.registers.SP = s.registers.SP ∧ s1.registers.BP = s.registers.BP := by
  have hdc : decodeOp (toUpperS (strLit "CMP")) = some .cmp := by decide
  have hds : decodeOp (toUpperS (strLit "SUB")) = some .sub := by decide
  simp only [executeInstruction, execCore, hdc, hds, stepCMP, stepSUB,
    withDestReg, withSrcValue, getOp, List.get?, isOk] at hc hs ⊢
  rcases h0 : parseRegister o0 with _ | dest
  · rw [h0] at hc; simp [err] at hc
  · rcases h1 : resolveValue s o1 with m | v
    · rw [h0, h1] at hc; simp [err] at hc
    · simp only [h0, h1]
      exact ⟨rfl, rfl, rfl, rfl, rfl, rfl, rfl, rfl, rfl⟩

/-- Witness for C7: `CMP AX, 1` and `SUB AX, 1` from the reset state. -/
theorem cmp_flags_eq_sub_flags_witness :
    let s1 := executeInstruction createInitialState
      ⟨strLit "CMP", [strLit "AX", strLit "1"], 0, []⟩ []
    let s2 := executeInstruction createInitialState
      ⟨strLit "SUB", [strLit "AX", strLit "1"], 0, []⟩ []
    s1.registers.FLAGS = s2.registers.FLAGS ∧
    s1.registers.AX = createInitialState.registers.AX ∧
    s1.registers.BX = createInitialState.registers.BX ∧
    s1.registers.CX = createInitialState.registers.CX ∧
    s1.registers.DX = createInitialState.registers.DX ∧
    s1.registers.SI = createInitialState.registers.SI ∧
    s1.registers.DI = createInitialState.registers.DI ∧
    s1.registers.SP = createInitialState.registers.SP ∧
    s1.registers.BP = createInitialState.registers.BP :=
  cmp_flags_eq_sub_flags createInitialState [] (strLit "AX") (strLit "1") 0 0 [] []
    (by decide) (by decide)

end X86

namespace X86

-- ---------------------------------------------------------------------------
-- C10
-- ---------------------------------------------------------------------------

/-- C10: `PUSH` with a register source fails non-atomically on a high `SP`: when
`SP - 2 ≥ 4095` the write bounds check throws only after `SP` has been
decremented, so the error state carries `SP - 2`; when `SP - 2 < 0` the
`Stack overflow` check throws before `SP` is touched.  `IP` is unchanged in both
cases. -/
theorem push_oob_sp_not_atomic (s : CPUState) (labels : LabelMap) (o0 : Str)
    (a : Int) (rw : Str) (r : Reg)
    (hmem : s.memory.size = 4096)
    (hr : parseRegister o0 = some r) :
    let s' := executeInstruction s ⟨strLit "PUSH", [o0], a, rw⟩ labels
    (4095 ≤ s.registers.SP - 2 →
        s'.halted = true ∧
        s'.error = some (strLit "Memory write out of bounds: 0x"
          ++ hexInt (s.registers.SP - 2)) ∧
        s'.registers.SP = s.registers.SP - 2 ∧
        s'.registers.IP = s.registers.IP) ∧
    (s.registers.SP - 2 < 0 →
        s'.halted = true ∧
        s'.error = some (strLit "Stack overflow") ∧
        s'.registers.SP = s.registers.SP ∧
        s'.registers.IP = s.registers.IP) := by
  have hd : decodeOp (toUpperS (strLit "PUSH")) = some .push := by decide
  have hww : ∀ (s1 : CPUState) (a v : Int), (a < 0 ∨ a + 1 ≥ (s1.memory.size : Int)) →
      writeWord s1 a v = .error (strLit "Memory write out of bounds: 0x" ++ hexInt a) := by
    intro s1 a v h
    unfold writeWord
    rw [if_pos h]
  simp only [executeInstruction, execCore, hd, stepPUSH, getOp, List.get?, hr, err]
  rw [if_neg (show ¬ (some r = none ∧ parseMemoryOperand o0 s.registers = none) by simp)]
  constructor
  · intro hge
    rw [if_neg (show ¬ (s.registers.SP - 2 < 0) by omega)]
    rw [hww _ _ _ (by right; simp only [hmem]; omega)]
    exact ⟨rfl, rfl, rfl, rfl⟩
  · intro hlt
    rw [if_pos hlt]
    exact ⟨rfl, rfl, rfl, rfl⟩

/-- Witness for C10: `MOV SP, 5000` then `PUSH AX` reaches the decremented-`SP`
error state; `MOV SP, 1` then `PUSH AX` reaches the untouched-`SP`
`Stack overflow` state. -/
theorem push_oob_sp_not_atomic_witness :
    (let sHigh := executeInstruction createInitialState (mkInstr "MOV" ["SP", "5000"]) []
     let s' := executeInstruction sHigh ⟨strLit "PUSH", [strLit "AX"], 0, []⟩ []
     s'.halted = true ∧
     s'.error = some (strLit "Memory write out of bounds: 0x"
       ++ hexInt (sHigh.registers.SP - 2)) ∧
     s'.registers.SP = sHigh.registers.SP - 2 ∧
     s'.registers.IP = sHigh.registers.IP) ∧
    (let sLow := executeInstruction createInitialState (mkInstr "MOV" ["SP", "1"]) []
     let s' := executeInstruction sLow ⟨strLit "PUSH", [strLit "AX"], 0, []⟩ []
     s'.halted = true ∧
     s'.error = some (strLit "Stack overflow") ∧
     s'.registers.SP = sLow.registers.SP ∧
     s'.registers.IP = sLow.registers.IP) := by
  constructor
  · exact (push_oob_sp_not_atomic
      (executeInstruction createInitialState (mkInstr "MOV" ["SP", "5000"]) [])
      [] (strLit "AX") 0 [] .ax (by decide) (by decide)).1 (by decide)
  · exact (push_oob_sp_not_atomic
      (executeInstruction createInitialState (mkInstr "MOV" ["SP", "1"]) [])
      [] (strLit "AX") 0 [] .ax (by decide) (by decide)).2 (by decide)

end X86

namespace X86

theorem stepMOV_ipSpec (s : CPUState) (ops : List Str) :
    failPreservesIP s (stepMOV s ops) ∧ okAdvancesIP s (stepMOV s ops) := by
  constructor
  · intro m s' h
    simp only [stepMOV, getOp, err] at h
    repeat' split at h
    all_goals (cases h <;> solve
      | simp
      | (rename_i hw
         simp [writeWord_ok_registers hw])
      | (rename_i hv hw
         simp [writeWord_ok_registers hw]))
  · intro s' h
    simp only [stepMOV, getOp, err] at h
    repeat' split at h
    all_goals (cases h <;> solve
      | simp
      | (rename_i hw
         simp [writeWord_ok_registers hw])
      | (rename_i hv hw
         simp [writeWord_ok_registers hw]))

theorem stepADD_ipSpec (s : CPUState) (ops : List Str) :
    failPreservesIP s (stepADD s ops) ∧ okAdvancesIP s (stepADD s ops) := by
  constructor
  · intro m s' h
    simp only [stepADD, withDestReg, withSrcValue, getOp, err] at h
    repeat' split at h
    all_goals (cases h <;> solve
      | simp
      | (rename_i hw
         simp [writeWord_ok_registers hw])
      | (rename_i hv hw
         simp [writeWord_ok_registers hw]))
  · intro s' h
    simp only [stepADD, withDestReg, withSrcValue, getOp, err] at h
    repeat' split at h
    all_goals (cases h <;> solve
      | simp
      | (rename_i hw
         simp [writeWord_ok_registers hw])
      | (rename_i hv hw
         simp [writeWord_ok_registers hw]))

theorem stepADC_ipSpec (s : CPUState) (ops : List Str) :
    failPreservesIP s (stepADC s ops) ∧ okAdvancesIP s (stepADC s ops) := by
  constructor
  · intro m s' h
    simp only [stepADC, withDestReg, withSrcValue, getOp, err] at h
    repeat' split at h
    all_goals (cases h <;> solve
      | simp
      | (rename_i hw
         simp [writeWord_ok_registers hw])
      | (rename_i hv hw
         simp [writeWord_ok_registers hw]))
  · intro s' h
    simp only [stepADC, withDestReg, withSrcValue, getOp, err] at h
    repeat' split at h
    all_goals (cases h <;> solve
      | simp
      | (rename_i hw
         simp [writeWord_ok_registers hw])
      | (rename_i hv hw
         simp [writeWord_ok_registers hw]))

theorem stepSUB_ipSpec (s : CPUState) (ops : List Str) :
    failPreservesIP s (stepSUB s ops) ∧ okAdvancesIP s (stepSUB s ops) := by
  constructor
  · intro m s' h
    simp only [stepSUB, withDestReg, withSrcValue, getOp, err] at h
    repeat' split at h
    all_goals (cases h <;> solve
      | simp
      | (rename_i hw
         simp [writeWord_ok_registers hw])
      | (rename_i hv hw
         simp [writeWord_ok_registers hw]))
  · intro s' h
    simp only [stepSUB, withDestReg, withSrcValue, getOp, err] at h
    repeat' split at h
    all_goals (cases h <;> solve
      | simp
      | (rename_i hw
         simp [writeWord_ok_registers hw])
      | (rename_i hv hw
         simp [writeWord_ok_registers hw]))

theorem stepSBB_ipSpec (s : CPUState) (ops : List Str) :
    failPreservesIP s (stepSBB s ops) ∧ okAdvancesIP s (stepSBB s ops) := by
  constructor
  · intro m s' h
    simp only [stepSBB, withDestReg, withSrcValue, getOp, err] at h
    repeat' split at h
    all_goals (cases h <;> solve
      | simp
      | (rename_i hw
         simp [writeWord_ok_registers hw])
      | (rename_i hv hw
         simp [writeWord_ok_registers hw]))
  · intro s' h
    simp only [stepSBB, withDestReg, withSrcValue, getOp, err] at h
    repeat' split at h
    all_goals (cases h <;> solve
      | simp
      | (rename_i hw
         simp [writeWord_ok_registers hw])
      | (rename_i hv hw
         simp [writeWord_ok_registers hw]))

theorem stepMUL_ipSpec (s : CPUState) (ops : List Str) :
    failPreservesIP s (stepMUL s ops) ∧ okAdvancesIP s (stepMUL s ops) := by
  constructor
  · intro m s' h
    simp only [stepMUL, withSrcValue, getOp, err] at h
    repeat' split at h
    all_goals (cases h <;> solve
      | simp
      | (rename_i hw
         simp [writeWord_ok_registers hw])
      | (rename_i hv hw
         simp [writeWord_ok_registers hw]))
  · intro s' h
    simp only [stepMUL, withSrcValue, getOp, err] at h
    repeat' split at h
    all_goals (cases h <;> solve
      | simp
      | (rename_i hw
         simp [writeWord_ok_registers hw])
      | (rename_i hv hw
         simp [writeWord_ok_registers hw]))

theorem stepDIV_ipSpec (s : CPUState) (ops : List Str) :
    failPreservesIP s (stepDIV s ops) ∧ okAdvancesIP s (stepDIV s ops) := by
  constructor
  · intro m s' h
    simp only [stepDIV, withSrcValue, getOp, err] at h
    repeat' split at h
    all_goals (cases h <;> solve
      | simp
      | (rename_i hw
         simp [writeWord_ok_registers hw])
      | (rename_i hv hw
         simp [writeWord_ok_registers hw]))
  · intro s' h
    simp only [stepDIV, withSrcValue, getOp, err] at h
    repeat' split at h
    all_goals (cases h <;> solve
      | simp
      | (rename_i hw
         simp [writeWord_ok_registers hw])
      | (rename_i hv hw
         simp [writeWord_ok_registers hw]))

theorem stepMOD_ipSpec (s : CPUState) (ops : List Str) :
    failPreservesIP s (stepMOD s ops) ∧ okAdvancesIP s (stepMOD s ops) := by
  constructor
  · intro m s' h
    simp only [stepMOD, withSrcValue, getOp, err] at h
    repeat' split at h
    all_goals (cases h <;> solve
      | simp
      | (rename_i hw
         simp [writeWord_ok_registers hw])
      | (rename_i hv hw
         simp [writeWord_ok_registers hw]))
  · intro s' h
    simp only [stepMOD, withSrcValue, getOp, err] at h
    repeat' split at h
    all_goals (cases h <;> solve
      | simp
      | (rename_i hw
         simp [writeWord_ok_registers hw])
      | (rename_i hv hw
         simp [writeWord_ok_registers hw]))

theorem stepNEG_ipSpec (s : CPUState) (ops : List Str) :
    failPreservesIP s (stepNEG s ops) ∧ okAdvancesIP s (stepNEG s ops) := by
  constructor
  · intro m s' h
    simp only [stepNEG, withDestReg, getOp, err] at h
    repeat' split at h
    all_goals (cases h <;> solve
      | simp
      | (rename_i hw
         simp [writeWord_ok_registers hw])
      | (rename_i hv hw
         simp [writeWord_ok_registers hw]))
  · intro s' h
    simp only [stepNEG, withDestReg, getOp, err] at h
    repeat' split at h
    all_goals (cases h <;> solve
      | simp
      | (rename_i hw
         simp [writeWord_ok_registers hw])
      | (rename_i hv hw
         simp [writeWord_ok_registers hw]))

theorem stepAND_ipSpec (s : CPUState) (ops : List Str) :
    failPreservesIP s (stepAND s ops) ∧ okAdvancesIP s (stepAND s ops) := by
  constructor
  · intro m s' h
    simp only [stepAND, withDestReg, withSrcValue, getOp, err] at h
    repeat' split at h
    all_goals (cases h <;> solve
      | simp
      | (rename_i hw
         simp [writeWord_ok_registers hw])
      | (rename_i hv hw
         simp [writeWord_ok_registers hw]))
  · intro s' h
    simp only [stepAND, withDestReg, withSrcValue, getOp, err] at h
    repeat' split at h
    all_goals (cases h <;> solve
      | simp
      | (rename_i hw
         simp [writeWord_ok_registers hw])
      | (rename_i hv hw
         simp [writeWord_ok_registers hw]))

theorem stepOR_ipSpec (s : CPUState) (ops : List Str) :
    failPreservesIP s (stepOR s ops) ∧ okAdvancesIP s (stepOR s ops) := by
  constructor
  · intro m s' h
    simp only [stepOR, withDestReg, withSrcValue, getOp, err] at h
    repeat' split at h
    all_goals (cases h <;> solve
      | simp
      | (rename_i hw
         simp [writeWord_ok_registers hw])
      | (rename_i hv hw
         simp [writeWord_ok_registers hw]))
  · intro s' h
    simp only [stepOR, withDestReg, withSrcValue, getOp, err] at h
    repeat' split at h
    all_goals (cases h <;> solve
      | simp
      | (rename_i hw
         simp [writeWord_ok_registers hw])
      | (rename_i hv hw
         simp [writeWord_ok_registers hw]))

theorem stepXOR_ipSpec (s : CPUState) (ops : List Str) :
    failPreservesIP s (stepXOR s ops) ∧ okAdvancesIP s (stepXOR s ops) := by
  constructor
  · intro m s' h
    simp only [stepXOR, withDestReg, withSrcValue, getOp, err] at h
    repeat' split at h
    all_goals (cases h <;> solve
      | simp
      | (rename_i hw
         simp [writeWord_ok_registers hw])
      | (rename_i hv hw
         simp [writeWord_ok_registers hw]))
  · intro s' h
    simp only [stepXOR, withDestReg, withSrcValue, getOp, err] at h
    repeat' split at h
    all_goals (cases h <;> solve
      | simp
      | (rename_i hw
         simp [writeWord_ok_registers hw])
      | (rename_i hv hw
         simp [writeWord_ok_registers hw]))

theorem stepNOT_ipSpec (s : CPUState) (ops : List Str) :
    failPreservesIP s (stepNOT s ops) ∧ okAdvancesIP s (stepNOT s ops) := by
  constructor
  · intro m s' h
    simp only [stepNOT, withDestReg, getOp, err] at h
    repeat' split at h
    all_goals (cases h <;> solve
      | simp
      | (rename_i hw
         simp [writeWord_ok_registers hw])
      | (rename_i hv hw
         simp [writeWord_ok_registers hw]))
  · intro s' h
    simp only [stepNOT, withDestReg, getOp, err] at h
    repeat' split at h
    all_goals (cases h <;> solve
      | simp
      | (rename_i hw
         simp [writeWord_ok_registers hw])
      | (rename_i hv hw
         simp [writeWord_ok_registers hw]))

theorem stepSHL_ipSpec (s : CPUState) (ops : List Str) :
    failPreservesIP s (stepSHL s ops) ∧ okAdvancesIP s (stepSHL s ops) := by
  constructor
  · intro m s' h
    simp only [stepSHL, withDestReg, getOp, err] at h
    repeat' split at h
    all_goals (cases h <;> solve
      | simp
      | (rename_i hw
         simp [writeWord_ok_registers hw])
      | (rename_i hv hw
         simp [writeWord_ok_registers hw]))
  · intro s' h
    simp only [stepSHL, withDestReg, getOp, err] at h
    repeat' split at h
    all_goals (cases h <;> solve
      | simp
      | (rename_i hw
         simp [writeWord_ok_registers hw])
      | (rename_i hv hw
         simp [writeWord_ok_registers hw]))

theorem stepSHR_ipSpec (s : CPUState) (ops : List Str) :
    failPreservesIP s (stepSHR s ops) ∧ okAdvancesIP s (stepSHR s ops) := by
  constructor
  · intro m s' h
    simp only [stepSHR, withDestReg, getOp, err] at h
    repeat' split at h
    all_goals (cases h <;> solve
      | simp
      | (rename_i hw
         simp [writeWord_ok_registers hw])
      | (rename_i hv hw
         simp [writeWord_ok_registers hw]))
  · intro s' h
    simp only [stepSHR, withDestReg, getOp, err] at h
    repeat' split at h
    all_goals (cases h <;> solve
      | simp
      | (rename_i hw
         simp [writeWord_ok_registers hw])
      | (rename_i hv hw
         simp [writeWord_ok_registers hw]))

theorem stepSAR_ipSpec (s : CPUState) (ops : List Str) :
    failPreservesIP s (stepSAR s ops) ∧ okAdvancesIP s (stepSAR s ops) := by
  constructor
  · intro m s' h
    simp only [stepSAR, withDestReg, getOp, err] at h
    repeat' split at h
    all_goals (cases h <;> solve
      | simp
      | (rename_i hw
         simp [writeWord_ok_registers hw])
      | (rename_i hv hw
         simp [writeWord_ok_registers hw]))
  · intro s' h
    simp only [stepSAR, withDestReg, getOp, err] at h
    repeat' split at h
    all_goals (cases h <;> solve
      | simp
      | (rename_i hw
         simp [writeWord_ok_registers hw])
      | (rename_i hv hw
         simp [writeWord_ok_registers hw]))

theorem stepCMP_ipSpec (s : CPUState) (ops : List Str) :
    failPreservesIP s (stepCMP s ops) ∧ okAdvancesIP s (stepCMP s ops) := by
  constructor
  · intro m s' h
    simp only [stepCMP, withDestReg, withSrcValue, getOp, err] at h
    repeat' split at h
    all_goals (cases h <;> solve
      | simp
      | (rename_i hw
         simp [writeWord_ok_registers hw])
      | (rename_i hv hw
         simp [writeWord_ok_registers hw]))
  · intro s' h
    simp only [stepCMP, withDestReg, withSrcValue, getOp, err] at h
    repeat' split at h
    all_goals (cases h <;> solve
      | simp
      | (rename_i hw
         simp [writeWord_ok_registers hw])
      | (rename_i hv hw
         simp [writeWord_ok_registers hw]))

theorem stepINC_ipSpec (s : CPUState) (ops : List Str) :
    failPreservesIP s (stepINC s ops) ∧ okAdvancesIP s (stepINC s ops) := by
  constructor
  · intro m s' h
    simp only [stepINC, withDestReg, getOp, err] at h
    repeat' split at h
    all_goals (cases h <;> solve
      | simp
      | (rename_i hw
         simp [writeWord_ok_registers hw])
      | (rename_i hv hw
         simp [writeWord_ok_registers hw]))
  · intro s' h
    simp only [stepINC, withDestReg, getOp, err] at h
    repeat' split at h
    all_goals (cases h <;> solve
      | simp
      | (rename_i hw
         simp [writeWord_ok_registers hw])
      | (rename_i hv hw
         simp [writeWord_ok_registers hw]))

theorem stepDEC_ipSpec (s : CPUState) (ops : List Str) :
    failPreservesIP s (stepDEC s ops) ∧ okAdvancesIP s (stepDEC s ops) := by
  constructor
  · intro m s' h
    simp only [stepDEC, withDestReg, getOp, err] at h
    repeat' split at h
    all_goals (cases h <;> solve
      | simp
      | (rename_i hw
         simp [writeWord_ok_registers hw])
      | (rename_i hv hw
         simp [writeWord_ok_registers hw]))
  · intro s' h
    simp only [stepDEC, withDestReg, getOp, err] at h
    repeat' split at h
    all_goals (cases h <;> solve
      | simp
      | (rename_i hw
         simp [writeWord_ok_registers hw])
      | (rename_i hv hw
         simp [writeWord_ok_registers hw]))

theorem stepPUSH_ipSpec (s : CPUState) (ops : List Str) :
    failPreservesIP s (stepPUSH s ops) ∧ okAdvancesIP s (stepPUSH s ops) := by
  constructor
  · intro m s' h
    simp only [stepPUSH, getOp, err] at h
    repeat' split at h
    all_goals (cases h <;> solve
      | simp
      | (rename_i hw
         simp [writeWord_ok_registers hw])
      | (rename_i hv hw
         simp [writeWord_ok_registers hw]))
  · intro s' h
    simp only [stepPUSH, getOp, err] at h
    repeat' split at h
    all_goals (cases h <;> solve
      | simp
      | (rename_i hw
         simp [writeWord_ok_registers hw])
      | (rename_i hv hw
         simp [writeWord_ok_registers hw]))

theorem stepPOP_ipSpec (s : CPUState) (ops : List Str) :
    failPreservesIP s (stepPOP s ops) ∧ okAdvancesIP s (stepPOP s ops) := by
  constructor
  · intro m s' h
    simp only [stepPOP, getOp, err] at h
    repeat' split at h
    all_goals (cases h <;> solve
      | simp
      | (rename_i hw
         simp [writeWord_ok_registers hw])
      | (rename_i hv hw
         simp [writeWord_ok_registers hw]))
  · intro s' h
    simp only [stepPOP, getOp, err] at h
    repeat' split at h
    all_goals (cases h <;> solve
      | simp
      | (rename_i hw
         simp [writeWord_ok_registers hw])
      | (rename_i hv hw
         simp [writeWord_ok_registers hw]))

theorem stepCLC_ipSpec (s : CPUState) :
    failPreservesIP s (stepCLC s) ∧ okAdvancesIP s (stepCLC s) := by
  constructor
  · intro m s' h
    simp only [stepCLC, err] at h
    repeat' split at h
    all_goals (cases h <;> simp)
  · intro s' h
    simp only [stepCLC, err] at h
    repeat' split at h
    all_goals (cases h <;> simp)

theorem stepSTC_ipSpec (s : CPUState) :
    failPreservesIP s (stepSTC s) ∧ okAdvancesIP s (stepSTC s) := by
  constructor
  · intro m s' h
    simp only [stepSTC, err] at h
    repeat' split at h
    all_goals (cases h <;> simp)
  · intro s' h
    simp only [stepSTC, err] at h
    repeat' split at h
    all_goals (cases h <;> simp)

theorem stepCMC_ipSpec (s : CPUState) :
    failPreservesIP s (stepCMC s) ∧ okAdvancesIP s (stepCMC s) := by
  constructor
  · intro m s' h
    simp only [stepCMC, err] at h
    repeat' split at h
    all_goals (cases h <;> simp)
  · intro s' h
    simp only [stepCMC, err] at h
    repeat' split at h
    all_goals (cases h <;> simp)

theorem stepJMP_fail (s : CPUState) (ops : List Str) (labels : LabelMap) :
    failPreservesIP s (stepJMP s ops labels) := by
  intro m s' h
  simp only [stepJMP, getOp, err] at h
  repeat' split at h
  all_goals (cases h <;> simp)

theorem stepJcc_fail (cond : Bool) (s : CPUState) (ops : List Str) (labels : LabelMap) :
    failPreservesIP s (stepJcc cond s ops labels) := by
  intro m s' h
  simp only [stepJcc, getOp, err] at h
  repeat' split at h
  all_goals (cases h <;> simp)

theorem stepHLT_fail (s : CPUState) :
    failPreservesIP s (stepHLT s) := by
  intro m s' h
  simp only [stepHLT] at h
  cases h

end X86

namespace X86

/-- The two `IP` obligations of the dispatch body, for every decoded opcode. -/
theorem execCore_ipSpec (s : CPUState) (instr : Instr) (labels : LabelMap) :
    failPreservesIP s (execCore s instr labels) ∧
    (∀ op, decodeOp (toUpperS instr.opcode) = some op → op.nonBranching = true →
      okAdvancesIP s (execCore s instr labels)) := by
  rcases hd : decodeOp (toUpperS instr.opcode) with _ | op
  · constructor
    · intro m s' h
      unfold execCore at h
      rw [hd] at h
      cases h
      rfl
    · intro op hop
      cases hop
  · constructor
    · intro m s' h
      unfold execCore at h
      rw [hd] at h
      cases op
      case mov => exact (stepMOV_ipSpec s instr.operands).1 m s' h
      case add => exact (stepADD_ipSpec s instr.operands).1 m s' h
      case adc => exact (stepADC_ipSpec s instr.operands).1 m s' h
      case sub => exact (stepSUB_ipSpec s instr.operands).1 m s' h
      case sbb => exact (stepSBB_ipSpec s instr.operands).1 m s' h
      case mul => exact (stepMUL_ipSpec s instr.operands).1 m s' h
      case div => exact (stepDIV_ipSpec s instr.operands).1 m s' h
      case mod => exact (stepMOD_ipSpec s instr.operands).1 m s' h
      case neg => exact (stepNEG_ipSpec s instr.operands).1 m s' h
      case band => exact (stepAND_ipSpec s instr.operands).1 m s' h
      case bor => exact (stepOR_ipSpec s instr.operands).1 m s' h
      case bxor => exact (stepXOR_ipSpec s instr.operands).1 m s' h
      case bnot => exact (stepNOT_ipSpec s instr.operands).1 m s' h
      case shl => exact (stepSHL_ipSpec s instr.operands).1 m s' h
      case shr => exact (stepSHR_ipSpec s instr.operands).1 m s' h
      case sar => exact (stepSAR_ipSpec s instr.operands).1 m s' h
      case cmp => exact (stepCMP_ipSpec s instr.operands).1 m s' h
      case inc => exact (stepINC_ipSpec s instr.operands).1 m s' h
      case dec => exact (stepDEC_ipSpec s instr.operands).1 m s' h
      case push => exact (stepPUSH_ipSpec s instr.operands).1 m s' h
      case pop => exact (stepPOP_ipSpec s instr.operands).1 m s' h
      case jmp => exact stepJMP_fail s instr.operands labels m s' h
      case je => exact stepJcc_fail _ s instr.operands labels m s' h
      case jne => exact stepJcc_fail _ s instr.operands labels m s' h
      case jl => exact stepJcc_fail _ s instr.operands labels m s' h
      case jg => exact stepJcc_fail _ s instr.operands labels m s' h
      case jle => exact stepJcc_fail _ s instr.operands labels m s' h
      case jge => exact stepJcc_fail _ s instr.operands labels m s' h
      case jc => exact stepJcc_fail _ s instr.operands labels m s' h
      case jnc => exact stepJcc_fail _ s instr.operands labels m s' h
      case jsf => exact stepJcc_fail _ s instr.operands labels m s' h
      case jns => exact stepJcc_fail _ s instr.operands labels m s' h
      case jo => exact stepJcc_fail _ s instr.operands labels m s' h
      case jno => exact stepJcc_fail _ s instr.operands labels m s' h
      case hlt => exact stepHLT_fail s m s' h
      case nop => cases h
      case out => cases h
      case outc => cases h
      case clc => exact (stepCLC_ipSpec s).1 m s' h
      case stc => exact (stepSTC_ipSpec s).1 m s' h
      case cmc => exact (stepCMC_ipSpec s).1 m s' h
    · intro op' hop' hnb s' h
      have hop2 : op = op' := Option.some.inj hop'
      subst hop2
      unfold execCore at h
      rw [hd] at h
      cases op
      case mov => exact (stepMOV_ipSpec s instr.operands).2 s' h
      case add => exact (stepADD_ipSpec s instr.operands).2 s' h
      case adc => exact (stepADC_ipSpec s instr.operands).2 s' h
      case sub => exact (stepSUB_ipSpec s instr.operands).2 s' h
      case sbb => exact (stepSBB_ipSpec s instr.operands).2 s' h
      case mul => exact (stepMUL_ipSpec s instr.operands).2 s' h
      case div => exact (stepDIV_ipSpec s instr.operands).2 s' h
      case mod => exact (stepMOD_ipSpec s instr.operands).2 s' h
      case neg => exact (stepNEG_ipSpec s instr.operands).2 s' h
      case band => exact (stepAND_ipSpec s instr.operands).2 s' h
      case bor => exact (stepOR_ipSpec s instr.operands).2 s' h
      case bxor => exact (stepXOR_ipSpec s instr.operands).2 s' h
      case bnot => exact (stepNOT_ipSpec s instr.operands).2 s' h
      case shl => exact (stepSHL_ipSpec s instr.operands).2 s' h
      case shr => exact (stepSHR_ipSpec s instr.operands).2 s' h
      case sar => exact (stepSAR_ipSpec s instr.operands).2 s' h
      case cmp => exact (stepCMP_ipSpec s instr.operands).2 s' h
      case inc => exact (stepINC_ipSpec s instr.operands).2 s' h
      case dec => exact (stepDEC_ipSpec s instr.operands).2 s' h
      case push => exact (stepPUSH_ipSpec s instr.operands).2 s' h
      case pop => exact (stepPOP_ipSpec s instr.operands).2 s' h
      case jmp => exact absurd hnb (by decide)
      case je => exact absurd hnb (by decide)
      case jne => exact absurd hnb (by decide)
      case jl => exact absurd hnb (by decide)
      case jg => exact absurd hnb (by decide)
      case jle => exact absurd hnb (by decide)
      case jge => exact absurd hnb (by decide)
      case jc => exact absurd hnb (by decide)
      case jnc => exact absurd hnb (by decide)
      case jsf => exact absurd hnb (by decide)
      case jns => exact absurd hnb (by decide)
      case jo => exact absurd hnb (by decide)
      case jno => exact absurd hnb (by decide)
      case hlt => exact absurd hnb (by decide)
      case nop => cases h; simp
      case out => cases h; simp
      case outc => cases h; simp
      case clc => exact (stepCLC_ipSpec s).2 s' h
      case stc => exact (stepSTC_ipSpec s).2 s' h
      case cmc => exact (stepCMC_ipSpec s).2 s' h

end X86

namespace X86

-- ---------------------------------------------------------------------------
-- C6
-- ---------------------------------------------------------------------------

/-- C6: whenever a `case` body of `executeInstruction` throws (invalid operand,
memory out of bounds, division by zero or overflow, unknown label, stack
overflow, unknown opcode, missing operand), the returned state is halted with a
non-null error message and its `IP` equals the input state's `IP`; and whenever a
non-branching instruction (any implemented opcode other than the jumps and `HLT`)
succeeds, `IP` advances by exactly one. -/
theorem exec_failure_and_stride (s : CPUState) (instr : Instr) (labels : LabelMap) :
    (isOk (execCore s instr labels) = false →
      (executeInstruction s instr labels).halted = true ∧
      (executeInstruction s instr labels).error ≠ none ∧
      (executeInstruction s instr labels).registers.IP = s.registers.IP) ∧
    (∀ op, decodeOp (toUpperS instr.opcode) = some op → op.nonBranching = true →
      isOk (execCore s instr labels) = true →
      (executeInstruction s instr labels).registers.IP = s.registers.IP + 1) := by
  obtain ⟨hfail, hok⟩ := execCore_ipSpec s instr labels
  constructor
  · intro hko
    cases hE : execCore s instr labels with
    | error p =>
      obtain ⟨m, st⟩ := p
      unfold executeInstruction
      rw [hE]
      exact ⟨rfl, by simp, hfail m st hE⟩
    | ok st =>
      rw [hE] at hko
      simp [isOk] at hko
  · intro op hop hnb hE
    cases hE2 : execCore s instr labels with
    | error p =>
      rw [hE2] at hE
      simp [isOk] at hE
    | ok st =>
      unfold executeInstruction
      rw [hE2]
      exact hok op hop hnb st hE2

/-- Witness for C6: `DIV BX` from the reset state divides by zero (failure path);
`ADD AX, 1` succeeds and advances `IP` from 0 to 1. -/
theorem exec_failure_and_stride_witness :
    ((executeInstruction createInitialState (mkInstr "DIV" ["BX"]) []).halted = true ∧
     (executeInstruction createInitialState (mkInstr "DIV" ["BX"]) []).error ≠ none ∧
     (executeInstruction createInitialState (mkInstr "DIV" ["BX"]) []).registers.IP
       = createInitialState.registers.IP) ∧
    (executeInstruction createInitialState (mkInstr "ADD" ["AX", "1"]) []).registers.IP
       = createInitialState.registers.IP + 1 := by
  constructor
  · exact (exec_failure_and_stride createInitialState (mkInstr "DIV" ["BX"]) []).1
      (by decide)
  · exact (exec_failure_and_stride createInitialState (mkInstr "ADD" ["AX", "1"]) []).2
      .add (by decide) (by decide) (by decide)

end X86

namespace X86

/-- C5 counterexample: an array-form memory of three entries is imported as a
three-byte memory, not padded to 4096 bytes as the claim states. -/
theorem normalizeMemory_short_array_counterexample :
    (normalizeMemory (.arr [some 1, some 2, some 3])).length = 3 ∧
    (normalizeMemory (.arr [some 1, some 2, some 3])).length ≠ 4096 := by decide

/-- C5 (amended): the imported memory's size depends on the serialized form —
array and `Uint8Array` forms keep their own length (array entries masked to
bytes), a sparse mapping with at least one all-digit key is normalized to
`max(4096, highest_index + 1)` bytes, and anything else yields 4096 zero
bytes; in particular an array shorter than 4096 entries is not padded. -/
theorem normalizeMemory_length (m : JMem) :
    (normalizeMemory m).length =
      (match m with
       | .u8 d => d.length
       | .arr d => d.length
       | .obj pairs =>
         let indexes := pairs.filterMap fun kv =>
           if kv.1 ≠ [] ∧ kv.1.all isDigitC then some (parseDigits 10 kv.1) else none
         if indexes ≠ [] then max DEFAULT_MEMORY_SIZE (indexes.foldl max 0 + 1)
         else DEFAULT_MEMORY_SIZE
       | .other => DEFAULT_MEMORY_SIZE) := by
  cases m with
  | u8 d => rfl
  | arr d => simp [normalizeMemory]
  | obj pairs =>
    simp only [normalizeMemory]
    split
    · simp
    · simp
  | other => simp [normalizeMemory]

/-- C3: after a single Continue on the assembled one-instruction program `HLT`
from the reset stepper state, the snapshot array has length 3 while the trace has
length 1 — the invariant `snapshots.length = trace.length + 1` is broken, because
the final guarded snapshot append compares object references that are never equal
(the stored snapshot state is a deep copy). -/
theorem continue_breaks_snapshot_invariant :
    (debugRunToEnd (assemble (strLit "HLT")).instructions [] [] resetStepper).snapshots.length
      = 3 ∧
    (debugRunToEnd (assemble (strLit "HLT")).instructions [] [] resetStepper).trace.length
      = 1 := by decide

/-- The trace the Continue loop returns is exactly the incoming trace followed
by a suffix of newly executed instruction addresses, and every address in that
suffix is outside the breakpoint set (the breakpoint test at the top of each
iteration precedes execution). -/
theorem runToEndLoop_trace_suffix (prog : List Instr) (labels : LabelMap) (bps : List Int) :
    ∀ (fuel : Nat) (st : CPUState) (tr : List Int) (sn : List Snap) (steps : Nat),
      ∃ u, (runToEndLoop prog labels bps fuel st tr sn steps).2.1 = tr ++ u ∧
        ∀ a ∈ u, bps.contains a = false := by
  intro fuel
  induction fuel with
  | zero =>
    intro st tr sn steps
    exact ⟨[], by simp [runToEndLoop], by simp⟩
  | succ n ih =>
    intro st tr sn steps
    simp only [runToEndLoop]
    split
    · exact ⟨[], by simp, by simp⟩
    · split
      · exact ⟨[], by simp, by simp⟩
      · split
        · exact ⟨[], by simp, by simp⟩
        · rename_i hnotbp
          split
          · refine ⟨[st.registers.IP], by simp, ?_⟩
            intro a ha
            have : a = st.registers.IP := List.mem_singleton.mp ha
            subst this
            simpa using hnotbp
          · rcases ih (executeInstruction st (prog.getD st.registers.IP.toNat defaultInstr) labels)
                (tr ++ [st.registers.IP])
                (sn ++ [⟨executeInstruction st (prog.getD st.registers.IP.toNat defaultInstr) labels,
                  (tr ++ [st.registers.IP]).length⟩])
                (steps + 1) with ⟨u, hu, hp⟩
            refine ⟨st.registers.IP :: u, ?_, ?_⟩
            · rw [show tr ++ st.registers.IP :: u = (tr ++ [st.registers.IP]) ++ u by simp]
              exact hu
            · intro a ha
              rcases List.mem_cons.mp ha with h | h
              · subst h
                simpa using hnotbp
              · exact hp a h

end X86

namespace X86

/-- C4 counterexample: Continue invoked on the reset (non-halted) machine whose
current `IP = 0` is in the breakpoint set executes zero instructions — it pauses
immediately, not after at least one step. -/
theorem continue_on_breakpoint_executes_nothing :
    createInitialState.halted = false ∧
    (resetStepper.snapshots.getD 0 ⟨createInitialState, 0⟩).state.registers.IP = 0 ∧
    (debugRunToEnd [mkInstr "NOP" [], mkInstr "HLT" []] [] [(0 : Int)]
        resetStepper).trace.length = 0 := by
  decide

/-- If the loop starts on a breakpoint, it returns without appending any trace
entry (the top-of-loop breakpoint check precedes execution, with no minimum step
count). -/
theorem runToEndLoop_immediate (prog : List Instr) (labels : LabelMap) (bps : List Int)
    (fuel : Nat) (st : CPUState) (tr : List Int) (sn : List Snap) (steps : Nat)
    (hbp : bps.contains st.registers.IP = true) :
    (runToEndLoop prog labels bps fuel st tr sn steps).2.1 = tr := by
  cases fuel with
  | zero => rfl
  | succ n =>
    simp only [runToEndLoop]
    repeat' split
    all_goals first
      | rfl
      | (rename_i hnotbp
         exact absurd hbp (by simpa using hnotbp))

/-- C4 (amended): Continue never executes an instruction whose address is in the
breakpoint set: the resulting trace is exactly the branch-truncated prior trace
followed by the addresses newly executed during this run, none of which is a
breakpoint; and when the cursor snapshot's `IP` is already a breakpoint it
pauses immediately, leaving the (branch-truncated) trace unchanged, i.e. zero
instructions executed. -/
theorem continue_pauses_before_breakpoints (prog : List Instr) (labels : LabelMap)
    (bps : List Int) (stp : Stepper) :
    (∃ u, (debugRunToEnd prog labels bps stp).trace
        = stp.trace.take (stp.snapshots.getD (min stp.cursor (stp.snapshots.length - 1))
            ⟨createInitialState, 0⟩).traceLength ++ u ∧
        ∀ a ∈ u, bps.contains a = false) ∧
    (bps.contains ((stp.snapshots.getD (min stp.cursor (stp.snapshots.length - 1))
          ⟨createInitialState, 0⟩).state.registers.IP) = true →
      (debugRunToEnd prog labels bps stp).trace
        = stp.trace.take (stp.snapshots.getD (min stp.cursor (stp.snapshots.length - 1))
            ⟨createInitialState, 0⟩).traceLength) := by
  constructor
  · obtain ⟨u, hu, hp⟩ := runToEndLoop_trace_suffix prog labels bps MAX_DEBUG_STEPS
      (stp.snapshots.getD (min stp.cursor (stp.snapshots.length - 1))
          ⟨createInitialState, 0⟩).state
      (stp.trace.take (stp.snapshots.getD (min stp.cursor (stp.snapshots.length - 1))
          ⟨createInitialState, 0⟩).traceLength)
      (stp.snapshots.take (min stp.cursor (stp.snapshots.length - 1) + 1)) 0
    exact ⟨u, hu, hp⟩
  · intro hbp
    exact runToEndLoop_immediate prog labels bps _ _ _ _ _ hbp

end X86

namespace X86

/-- Witness for the amended C4 at the concrete program `[NOP, HLT]` with
breakpoint set `{0}` from the reset stepper. -/
theorem continue_pauses_before_breakpoints_witness :
    List.contains [(0 : Int)]
        ((resetStepper.snapshots.getD (min resetStepper.cursor
            (resetStepper.snapshots.length - 1)) ⟨createInitialState, 0⟩).state.registers.IP)
      = true ∧
    (debugRunToEnd [mkInstr "NOP" [], mkInstr "HLT" []] [] [(0 : Int)] resetStepper).trace
      = resetStepper.trace.take
          ((resetStepper.snapshots.getD (min resetStepper.cursor
              (resetStepper.snapshots.length - 1)) ⟨createInitialState, 0⟩).traceLength) :=
  ⟨by decide,
    (continue_pauses_before_breakpoints [mkInstr "NOP" [], mkInstr "HLT" []] [] [(0 : Int)]
      resetStepper).2 (by decide)⟩

end X86

namespace X86

-- ---------------------------------------------------------------------------
-- C2 support: trim facts and the pass-1 / pass-2 index agreement
-- ---------------------------------------------------------------------------

theorem jsTrim_eq_rdropWhile (s : Str) :
    jsTrim s = List.rdropWhile isWS (s.dropWhile isWS) := rfl

theorem head?_dropWhile_isWS : ∀ (l : Str) (c : Nat),
    (l.dropWhile isWS).head? = some c → isWS c = false := by
  intro l
  induction l with
  | nil => intro c h; cases h
  | cons a t ih =>
    intro c h
    by_cases ha : isWS a = true
    · rw [List.dropWhile_cons_of_pos ha] at h
      exact ih c h
    · rw [List.dropWhile_cons_of_neg (by simpa using ha)] at h
      cases h
      simpa using ha

theorem jsTrim_head?_not_ws (s : Str) (c : Nat)
    (h : (jsTrim s).head? = some c) : isWS c = false := by
  obtain ⟨t, ht⟩ : jsTrim s <+: s.dropWhile isWS := by
    rw [jsTrim_eq_rdropWhile]
    exact List.rdropWhile_prefix isWS (s.dropWhile isWS)
  rcases he : jsTrim s with _ | ⟨a, r⟩
  · rw [he] at h; cases h
  · rw [he] at h
    obtain rfl : a = c := Option.some.inj h
    rw [he] at ht
    apply head?_dropWhile_isWS s a
    rw [← ht]
    rfl

theorem jsTrim_cons_ne_nil (c : Nat) (t : Str) (hc : isWS c = false) :
    jsTrim (c :: t) ≠ [] := by
  rw [jsTrim_eq_rdropWhile, List.dropWhile_cons_of_neg (by simp [hc])]
  intro hnil
  rw [List.rdropWhile_eq_nil_iff] at hnil
  exact absurd (hnil c (by simp)) (by simp [hc])

/-- A nonempty trimmed line whose head is not `;` survives inline-comment
stripping: the processed line of pass 2 exists. -/
theorem stripComment_ne_nil (line : Str) (hsrc : ∃ u, line = jsTrim u)
    (hne : line ≠ []) (hsemi : line.head? ≠ some 59) :
    (if line.contains 59 then jsTrim (line.takeWhile (fun n => n ≠ 59)) else line) ≠ [] := by
  obtain ⟨u, rfl⟩ := hsrc
  rcases he : jsTrim u with _ | ⟨a, r⟩
  · exact absurd he hne
  · have hws : isWS a = false := jsTrim_head?_not_ws u a (by rw [he]; rfl)
    have ha59 : a ≠ 59 := by
      intro hEq
      exact hsemi (by rw [he, hEq]; rfl)
    split
    · rw [List.takeWhile_cons_of_pos (by simpa using ha59)]
      exact jsTrim_cons_ne_nil a _ hws
    · simp

/-- Pass 2 advances its index counter exactly on the lines whose processed text
exists (whether or not the opcode is valid). -/
theorem pass2Line_idx (i : Nat) (raw : Str) (st : P2St) :
    (pass2Line i raw st).idx = st.idx + (if (processedLine raw).isSome then 1 else 0) := by
  cases hp : processedLine raw with
  | none => simp [pass2Line, hp]
  | some line =>
    simp only [pass2Line, hp]
    split <;> simp

/-- Pass 1 advances its index counter on exactly the same lines as pass 2. -/
theorem pass1Line_idx (i : Nat) (raw : Str) (st : P1St) :
    (pass1Line i raw st).idx = st.idx + (if (processedLine raw).isSome then 1 else 0) := by
  unfold pass1Line processedLine
  by_cases hb : jsTrim raw = [] ∨ (jsTrim raw).head? = some 59
  · rw [if_pos hb, if_pos hb]
    simp
  · rw [if_neg hb, if_neg hb]
    cases hl : labelMatch (jsTrim raw) with
    | none =>
      simp only [hl]
      rw [if_neg hb]
      have hne : (if (jsTrim raw).contains 59 then
          jsTrim ((jsTrim raw).takeWhile (fun n => n ≠ 59)) else jsTrim raw) ≠ [] :=
        stripComment_ne_nil (jsTrim raw) ⟨raw, rfl⟩ (by tauto) (by tauto)
      rw [if_neg hne]
      simp
    | some pair =>
      obtain ⟨w, rest⟩ := pair
      simp only [hl]
      by_cases ha : jsTrim rest ≠ [] ∧ (jsTrim rest).head? ≠ some 59
      · rw [if_pos ha]
        rw [if_neg (show ¬ (jsTrim rest = [] ∨ (jsTrim rest).head? = some 59) by tauto)]
        have hne : (if (jsTrim rest).contains 59 then
            jsTrim ((jsTrim rest).takeWhile (fun n => n ≠ 59)) else jsTrim rest) ≠ [] :=
          stripComment_ne_nil (jsTrim rest) ⟨rest, rfl⟩ ha.1 ha.2
        rw [if_neg hne]
        split <;> simp
      · rw [if_neg ha]
        rw [if_pos (show jsTrim rest = [] ∨ (jsTrim rest).head? = some 59 by tauto)]
        split <;> simp

/-- The two passes' index counters agree after any common list of lines. -/
theorem foldIdx_pass_idx_eq : ∀ (lines : List Str) (i : Nat) (st1 : P1St) (st2 : P2St),
    st1.idx = st2.idx →
    (foldIdx pass1Line i lines st1).idx = (foldIdx pass2Line i lines st2).idx := by
  intro lines
  induction lines with
  | nil => intro i st1 st2 h; simpa [foldIdx] using h
  | cons l rest ih =>
    intro i st1 st2 h
    simp only [foldIdx]
    exact ih (i + 1) _ _ (by rw [pass1Line_idx, pass2Line_idx, h])

/-- An unknown opcode records the diagnostic and advances the index counter, but
appends no instruction. -/
theorem pass2Line_unknown (i : Nat) (raw line : Str) (st : P2St)
    (hp : processedLine raw = some line)
    (hunk : toUpperS ((words line).headD []) ∉ VALID_OPCODES) :
    (pass2Line i raw st).instrs = st.instrs ∧
    (pass2Line i raw st).errors = st.errors ++
      [errDiag (i + 1) (strLit "Unknown instruction: " ++ toUpperS ((words line).headD []))] ∧
    (pass2Line i raw st).idx = st.idx + 1 := by
  simp only [pass2Line, hp]
  rw [if_pos (by simpa using hunk)]
  exact ⟨rfl, rfl, rfl⟩

theorem foldIdx_append {α σ : Type} (f : Nat → α → σ → σ) :
    ∀ (l1 l2 : List α) (i : Nat) (st : σ),
      foldIdx f i (l1 ++ l2) st = foldIdx f (i + l1.length) l2 (foldIdx f i l1 st) := by
  intro l1
  induction l1 with
  | nil => intro l2 i st; simp [foldIdx]
  | cons a t ih =>
    intro l2 i st
    rw [show (a :: t) ++ l2 = a :: (t ++ l2) from rfl]
    simp only [foldIdx]
    rw [ih]
    congr 1
    simp [List.length_cons]
    omega

theorem pass2Line_errors_mono (i : Nat) (raw : Str) (st : P2St) :
    ∃ u, (pass2Line i raw st).errors = st.errors ++ u := by
  cases hp : processedLine raw with
  | none => exact ⟨[], by simp [pass2Line, hp]⟩
  | some line =>
    simp only [pass2Line, hp]
    split
    · exact ⟨_, rfl⟩
    · exact ⟨_, rfl⟩

theorem foldIdx_pass2_errors_mono : ∀ (lines : List Str) (i : Nat) (st : P2St),
    ∃ u, (foldIdx pass2Line i lines st).errors = st.errors ++ u := by
  intro lines
  induction lines with
  | nil => intro i st; exact ⟨[], by simp [foldIdx]⟩
  | cons l rest ih =>
    intro i st
    obtain ⟨u1, hu1⟩ := pass2Line_errors_mono i l st
    obtain ⟨u2, hu2⟩ := ih (i + 1) (pass2Line i l st)
    exact ⟨u1 ++ u2, by simp only [foldIdx, hu2, hu1, List.append_assoc]⟩

/-- C2 (amended): a non-blank, non-comment line whose opcode is not in the valid
set makes `assemble` record an `Unknown instruction` error diagnostic for that
line and advance the instruction-index counter, without appending an instruction
to the sequence; the pass-2 counter agrees with the pass-1 counter at every line
prefix, so labels collected in pass 1 stay aligned with the `address` fields
pass 2 assigns (though not with positions in the instruction array). -/
theorem assemble_unknown_opcode_behavior (source : Str) (n : Nat) (line : Str)
    (hn : n < (splitOnNL source).length)
    (hp : processedLine ((splitOnNL source).get ⟨n, hn⟩) = some line)
    (hunk : toUpperS ((words line).headD []) ∉ VALID_OPCODES) :
    (errDiag (n + 1) (strLit "Unknown instruction: " ++ toUpperS ((words line).headD []))
      ∈ (assemble source).errors) ∧
    (foldIdx pass2Line 0 ((splitOnNL source).take (n + 1)) ⟨[], [], 0⟩).instrs
      = (foldIdx pass2Line 0 ((splitOnNL source).take n) ⟨[], [], 0⟩).instrs ∧
    (foldIdx pass2Line 0 ((splitOnNL source).take (n + 1)) ⟨[], [], 0⟩).idx
      = (foldIdx pass2Line 0 ((splitOnNL source).take n) ⟨[], [], 0⟩).idx + 1 ∧
    (∀ k, (pass1 ((splitOnNL source).take k)).idx = (pass2 ((splitOnNL source).take k)).idx) := by
  have hlen : ((splitOnNL source).take n).length = n := by
    rw [List.length_take]; omega
  have hstep : foldIdx pass2Line 0 ((splitOnNL source).take (n + 1)) ⟨[], [], 0⟩
      = pass2Line n ((splitOnNL source).get ⟨n, hn⟩)
          (foldIdx pass2Line 0 ((splitOnNL source).take n) ⟨[], [], 0⟩) := by
    rw [List.take_add_one, List.getElem?_eq_getElem hn]
    rw [foldIdx_append, hlen]
    simp only [Option.toList_some, foldIdx, Nat.zero_add]
    simp [List.get_eq_getElem]
  obtain ⟨hi, he, hx⟩ := pass2Line_unknown n ((splitOnNL source).get ⟨n, hn⟩) line
    (foldIdx pass2Line 0 ((splitOnNL source).take n) ⟨[], [], 0⟩) hp hunk
  have h2 : pass2 (splitOnNL source) = foldIdx pass2Line
      (0 + ((splitOnNL source).take (n + 1)).length) ((splitOnNL source).drop (n + 1))
      (foldIdx pass2Line 0 ((splitOnNL source).take (n + 1)) ⟨[], [], 0⟩) := by
    show foldIdx pass2Line 0 (splitOnNL source) ⟨[], [], 0⟩ = _
    conv_lhs => rw [← List.take_append_drop (n + 1) (splitOnNL source)]
    rw [foldIdx_append]
  obtain ⟨u, hu⟩ := foldIdx_pass2_errors_mono ((splitOnNL source).drop (n + 1))
    (0 + ((splitOnNL source).take (n + 1)).length)
    (foldIdx pass2Line 0 ((splitOnNL source).take (n + 1)) ⟨[], [], 0⟩)
  have herr : errDiag (n + 1)
      (strLit "Unknown instruction: " ++ toUpperS ((words line).headD []))
      ∈ (pass2 (splitOnNL source)).errors := by
    rw [h2, hu, hstep, he]
    simp
  refine ⟨?_, ?_, ?_, ?_⟩
  · have hA : (assemble source).errors
        = (pass1 (splitOnNL source)).errors ++ (pass2 (splitOnNL source)).errors := rfl
    rw [hA]
    exact List.mem_append.mpr (Or.inr herr)
  · rw [hstep]; exact hi
  · rw [hstep]; exact hx
  · intro k
    exact foldIdx_pass_idx_eq ((splitOnNL source).take k) 0 ⟨[], [], 0⟩ ⟨[], [], 0⟩ rfl

end X86

namespace X86

-- ---------------------------------------------------------------------------
-- C9: identifier tokens are stored lowercased
-- ---------------------------------------------------------------------------

theorem lowerC_idem (n : Nat) : lowerC (lowerC n) = lowerC n := by
  unfold lowerC
  split <;> (try split) <;> omega

theorem toLowerS_idem (s : Str) : toLowerS (toLowerS s) = toLowerS s := by
  induction s with
  | nil => rfl
  | cons a t ih =>
    simp only [toLowerS, List.map_cons, List.map_map] at ih ⊢
    rw [lowerC_idem]
    exact congrArg _ ih

/-- Every `IDENTIFIER` token the line scanner emits carries a lowercased
value. -/
theorem scanLine_ident_lower (lineNum : Nat) : ∀ (fuel : Nat) (rest : Str) (col : Nat)
    (t : Token), t ∈ (scanLine lineNum fuel rest col).1 →
    t.ttype = .identifier → toLowerS t.value = t.value := by
  intro fuel
  induction fuel with
  | zero =>
    intro rest col t ht _
    simp [scanLine] at ht
  | succ n ih =>
    intro rest col t ht hid
    cases rest with
    | nil => simp [scanLine] at ht
    | cons c r =>
      rw [scanLine] at ht
      repeat' split at ht
      all_goals (solve
        | simp at ht
        | exact ih _ _ t ht hid
        | (rcases List.mem_cons.mp ht with rfl | hmem <;> first
            | cases hid
            | exact toLowerS_idem _
            | exact ih _ _ t hmem hid))

/-- The per-line fold preserves loweredness of identifier values (`NEWLINE`
insertion adds no identifier token). -/
theorem tokenizeLines_ident_lower : ∀ (lines : List Str) (lineNum : Nat)
    (toks : List Token) (errs : List Diag),
    (∀ t ∈ toks, t.ttype = .identifier → toLowerS t.value = t.value) →
    ∀ t ∈ (tokenizeLines lineNum lines toks errs).1,
      t.ttype = .identifier → toLowerS t.value = t.value := by
  intro lines
  induction lines with
  | nil =>
    intro lineNum toks errs hbase t ht hid
    exact hbase t ht hid
  | cons l rest ih =>
    intro lineNum toks errs hbase t ht hid
    rw [tokenizeLines] at ht
    apply ih (lineNum + 1) _ _ ?_ t ht hid
    intro t' ht' hid'
    have hstep : ∀ t'' , t'' ∈ toks ++ (scanLine lineNum l.length l 0).1 →
        t''.ttype = .identifier → toLowerS t''.value = t''.value := by
      intro t'' ht'' hid''
      rcases List.mem_append.mp ht'' with h1 | h1
      · exact hbase t'' h1 hid''
      · exact scanLine_ident_lower lineNum l.length l 0 t'' h1 hid''
    revert ht'
    split
    · intro ht'
      rcases List.mem_append.mp ht' with h1 | h1
      · exact hstep t' h1 hid'
      · rcases List.mem_singleton.mp h1 with rfl
        cases hid'
    · intro ht'
      exact hstep t' ht' hid'

/-- C9: the lexer stores the value of every `IDENTIFIER` token lowercased (for
any source text), so identifiers — and hence variable names — are
case-insensitive throughout compilation. -/
theorem lexer_identifiers_lowercased (source : Str) :
    ∀ t, t ∈ (tokenize source).1 → t.ttype = .identifier →
      toLowerS t.value = t.value := by
  intro t ht hid
  rcases List.mem_append.mp ht with h1 | h1
  · exact tokenizeLines_ident_lower (splitOnNL source) 1 [] [] (by intro t' ht'; cases ht')
      t h1 hid
  · rcases List.mem_singleton.mp h1 with rfl
    cases hid

/-- Witness for C9: the token produced for the mixed-case identifier `Abc` has
the lowercased value `abc`, which is a fixed point of lowercasing. -/
theorem lexer_identifiers_lowercased_witness :
    (⟨.identifier, strLit "abc", 1, 1⟩ : Token) ∈ (tokenize (strLit "Abc")).1 ∧
    toLowerS (strLit "abc") = strLit "abc" :=
  ⟨by decide,
    lexer_identifiers_lowercased (strLit "Abc") ⟨.identifier, strLit "abc", 1, 1⟩
      (by decide) (by decide)⟩

end X86

namespace X86

/-- C2 counterexample: for the source `FOO␤L: MOV AX, 1`, the unknown opcode
`FOO` contributes no instruction to the sequence: the label `L` maps to index 1,
but position 1 of the instruction sequence holds the implicit `HLT`, not the
`MOV` that textually follows the label (which sits at position 0 carrying
`address` 1). -/
theorem assemble_unknown_opcode_counterexample :
    (assocLookup (assemble (strLit "FOO\nL: MOV AX, 1")).labels (strLit "L") = some 1) ∧
    ((assemble (strLit "FOO\nL: MOV AX, 1")).instructions.map Instr.opcode
      = [strLit "MOV", strLit "HLT"]) ∧
    (((assemble (strLit "FOO\nL: MOV AX, 1")).instructions.map Instr.address) = [1, 2]) ∧
    ((assemble (strLit "FOO\nL: MOV AX, 1")).errors.map Diag.message
      = [strLit "Unknown instruction: FOO"]) := by
  decide

/-- Witness for the amended C2 at the concrete source `FOO␤MOV AX, 1` (line 0 has
the unknown opcode `FOO`). -/
theorem assemble_unknown_opcode_behavior_witness :
    (errDiag 1 (strLit "Unknown instruction: "
        ++ toUpperS ((words (strLit "FOO")).headD []))
      ∈ (assemble (strLit "FOO\nMOV AX, 1")).errors) ∧
    (foldIdx pass2Line 0 ((splitOnNL (strLit "FOO\nMOV AX, 1")).take 1) ⟨[], [], 0⟩).instrs
      = (foldIdx pass2Line 0 ((splitOnNL (strLit "FOO\nMOV AX, 1")).take 0) ⟨[], [], 0⟩).instrs ∧
    (foldIdx pass2Line 0 ((splitOnNL (strLit "FOO\nMOV AX, 1")).take 1) ⟨[], [], 0⟩).idx
      = (foldIdx pass2Line 0 ((splitOnNL (strLit "FOO\nMOV AX, 1")).take 0) ⟨[], [], 0⟩).idx + 1 ∧
    (∀ k, (pass1 ((splitOnNL (strLit "FOO\nMOV AX, 1")).take k)).idx
      = (pass2 ((splitOnNL (strLit "FOO\nMOV AX, 1")).take k)).idx) :=
  assemble_unknown_opcode_behavior (strLit "FOO\nMOV AX, 1") 0 (strLit "FOO")
    (by decide) (by decide) (by decide)

end X86
